import Mathlib

/-!
Verification development for the dronefeint scenario generator
(`src/game/scenarios/startingScenario.ts`, `neutralRebalancer.ts`,
`fairnessMetrics.ts`, `fairnessReport.ts`).

The TypeScript code computes with JS doubles and the `Math` library.  We use a
shallow embedding over an arbitrary linear ordered field `R` (with a floor
function), and package the transcendental `Math` functions the code calls
(`sin`, `cos`, `atan2`, `hypot`, `sqrt`, and the constant `Math.PI`) into an
explicit record `JsOps R` of otherwise-arbitrary functions.  All arithmetic
(`+ - * /`, comparisons, `Math.abs/min/max/floor`) is embedded exactly; the
integer-bitwise xorshift PRNG is embedded exactly over `Nat`.  Theorems
quantify over the ops record, so they hold for the real-number interpretation
in particular; witnesses instantiate `R := ℚ` with computable ops.
-/

namespace DroneFeint

/-- The `Math` functions used by the generator, as an abstract record:
`sin`, `cos`, `atan2 y x`, `hypot dx dy`, `sqrt`, and `Math.PI`. -/
structure JsOps (R : Type) where
  pi : R
  sin : R → R
  cos : R → R
  atan2 : R → R → R
  hypot : R → R → R
  sqrt : R → R

variable {R : Type} [LinearOrderedField R] [FloorRing R]

/-! ### JS numeric helpers -/

/-- JS truncation toward zero (used by the `%` operator on numbers). -/
def jsTrunc (x : R) : ℤ := if 0 ≤ x then ⌊x⌋ else -⌊-x⌋

/-- JS remainder `a % b` on numbers: `a - b * trunc (a / b)`
(sign follows the dividend).  `b = 0` never occurs at call sites
(`b` is `2π` with `π = Math.PI > 0` there). -/
def jsMod (a b : R) : R := a - b * (jsTrunc (a / b) : R)

/-- `Math.max(lo, Math.min(hi, v))` — the source's `clamp(v, lo, hi)`. -/
def clamp (v lo hi : R) : R := max lo (min hi v)

/-! ### The seeded PRNG (`startingScenario.ts` lines 1012-1018)

```js
let s = resolvedSeed;
const rng = () => {
  s ^= s << 13;
  s ^= s >> 17;
  s ^= s << 5;
  return ((s >>> 0) % 1_000_000) / 1_000_000;
};
```

JS bitwise operators coerce to 32-bit integers.  We carry the state as the
unsigned 32-bit bit pattern (a `Nat < 2^32`).  `<< k` is multiplication mod
`2^32`; `>> 17` is the arithmetic (sign-propagating) shift of the int32 with
that bit pattern; `^` is bitwise xor; `s >>> 0` reads the pattern unsigned. -/

/-- Arithmetic shift right by 17 of the int32 whose unsigned bit pattern is
`s`, returned as an unsigned bit pattern: for negative values (`s ≥ 2^31`)
the top 17 bits of the result are set. -/
def sar17 (s : ℕ) : ℕ :=
  if s < 2 ^ 31 then s / 2 ^ 17 else s / 2 ^ 17 + (2 ^ 32 - 2 ^ 15)

/-- One update of the xorshift state (the three `^=` lines). The initial
`mod 2^32` is the `ToInt32` coercion JS applies to the stored number. -/
def xorshift (s : ℕ) : ℕ :=
  let s0 := s % 2 ^ 32
  let s1 := s0 ^^^ ((s0 * 2 ^ 13) % 2 ^ 32)
  let s2 := s1 ^^^ sar17 s1
  s2 ^^^ ((s2 * 2 ^ 5) % 2 ^ 32)

/-- The value returned by one `rng()` call from the post-update state:
`((s >>> 0) % 1_000_000) / 1_000_000`. -/
def rngValOfState (s : ℕ) : ℚ := ((s % 1000000 : ℕ) : ℚ) / 1000000

/-- One `rng()` call: update the state, return the value and the new state. -/
def nextQ (s : ℕ) : ℚ × ℕ :=
  let s' := xorshift s
  (rngValOfState s', s')

/-- `rng()` as consumed by the floating-point pipeline: the rational value
cast into `R`. -/
def nextR (s : ℕ) : R × ℕ :=
  let (q, s') := nextQ s
  ((q : R), s')

/-- The state after `k` calls starting from (raw) seed `s`. -/
def rngStateAfter (seed : ℕ) (k : ℕ) : ℕ := xorshift^[k] seed

/-- The value produced by call number `k` (0-based) of the generator's RNG
closure seeded with `seed`. -/
def rngStream (seed : ℕ) (k : ℕ) : ℚ := rngValOfState (rngStateAfter seed (k + 1))

/-! ### Geometry -/

/-- A plain `{x, y}` point (the source's `NeutralPlacement` also carries an
optional `type` field, but no code path ever assigns it — every constructor
site is an `{x, y}` literal — so it is omitted here). -/
structure Pt (R : Type) where
  x : R
  y : R
deriving DecidableEq, Repr

/-- Structure types that occur in generated scenarios. -/
inductive SType where
  | hq
  | foundry
  | reactor
deriving DecidableEq, Repr

/-- The source's `LabeledPoint`. -/
structure LPt (R : Type) where
  x : R
  y : R
  id : String
  type : SType
  ownerId : Option String
deriving DecidableEq, Repr

/-- Position of a labeled point. -/
def LPt.pos (p : LPt R) : Pt R := ⟨p.x, p.y⟩

/-- Replace only the coordinates of a labeled point (the mutation
`p.x = …; p.y = …` used by the repair loops). -/
def LPt.setPos (p : LPt R) (q : Pt R) : LPt R := { p with x := q.x, y := q.y }

/-- `length(a, b) = Math.hypot(a.x - b.x, a.y - b.y)`. -/
def len (ops : JsOps R) (a b : Pt R) : R := ops.hypot (a.x - b.x) (a.y - b.y)

/-- `polar(center, r, angle)`. -/
def polar (ops : JsOps R) (c : Pt R) (r angle : R) : Pt R :=
  ⟨c.x + ops.cos angle * r, c.y + ops.sin angle * r⟩

/-- `project(anchorX, anchorY, angle, radial, tangential)`. -/
def project (ops : JsOps R) (ax ay angle radial tangential : R) : Pt R :=
  ⟨ax + ops.cos angle * radial + -ops.sin angle * tangential,
   ay + ops.sin angle * radial + ops.cos angle * tangential⟩

/-- `randomRange(min, max, rng)`. -/
def randomRange (lo hi : R) (s : ℕ) : R × ℕ :=
  let (q, s') := nextR (R := R) s
  (lo + (hi - lo) * q, s')

/-- `clampAngle`: the source normalizes by the two `while` loops
```js
while (angle <= -Math.PI) angle += Math.PI * 2;
while (angle > Math.PI) angle -= Math.PI * 2;
```
For `π > 0` the loops terminate and produce the unique representative in
`(-π, π]`, which is the closed form below (`a - 2π⌈(a-π)/(2π)⌉`). -/
def clampAngle (ops : JsOps R) (a : R) : R :=
  a - 2 * ops.pi * (⌈(a - ops.pi) / (2 * ops.pi)⌉ : R)

/-- Fisher–Yates swap step helper: exchange entries `i` and `j` of a list
(no-op when out of range; in `shuffle` both are always in range). -/
def listSwap (l : List α) (i j : ℕ) : List α :=
  match l.get? i, l.get? j with
  | some a, some b => (l.set i b).set j a
  | _, _ => l

/-- The downward loop of `shuffle`: for `i = len-1 … 1`,
`j = Math.floor(rng() * (i + 1))`, swap `a[i]` and `a[j]`. -/
def shuffleGo (l : List α) (i : ℕ) (s : ℕ) : List α × ℕ :=
  match i with
  | 0 => (l, s)
  | i + 1 =>
    let (q, s') := nextR (R := ℚ) s
    let j := (⌊q * (i + 1 + 1 : ℚ)⌋).toNat
    shuffleGo (listSwap l (i + 1) j) i s'

/-- `shuffle(arr, rng)` (`startingScenario.ts` lines 552-559).  The
`Math.floor(rng() * (i + 1))` index is computed in exact rational
arithmetic, which agrees with the JS computation on these values. -/
def shuffle (l : List α) (s : ℕ) : List α × ℕ :=
  shuffleGo l (l.length - 1) s

/-! ### Generator constants (`startingScenario.ts` lines 488-548) -/

def NUM_PLAYERS : ℕ := 5

/-- `TWO_PI = Math.PI * 2`. -/
def twoPi (ops : JsOps R) : R := ops.pi * 2

/-- `HQ_HQ_MIN_DISTANCE = 180 * 6`. -/
def HQ_HQ_MIN_DISTANCE : R := 180 * 6

/-- `SAT_ANGLE_SPREAD = 100π/180`. -/
def SAT_ANGLE_SPREAD (ops : JsOps R) : R := 100 * ops.pi / 180

/-- `SAT_MIN_ANGLE_SEP = 35π/180`. -/
def SAT_MIN_ANGLE_SEP (ops : JsOps R) : R := 35 * ops.pi / 180

def CLUSTER_DISTANCE_MIN : R := 210
def CLUSTER_DISTANCE_MAX : R := 320
def CLUSTER_MIN_SEPARATION : R := 140
def CLUSTER_FOREIGN_MARGIN : R := 60
def CROSS_PLAYER_SONAR_BUFFER : R := 380
def NEUTRAL_MIN_SEPARATION : R := 240
def NEUTRAL_COUNT : ℕ := NUM_PLAYERS * 2
def NEUTRAL_CENTER_MIN : ℕ := 3
def NEUTRAL_CENTER_MAX : ℕ := 7
def NEUTRAL_NEAR_RADIUS : R := 450
def CENTER_OCCUPANCY_RADIUS : R := 450
def NEUTRAL_MID_RADIUS : R := 900
def NEUTRAL_FAR_RADIUS : R := 1400
def NEUTRAL_WEDGE_OFFSET_MIN : R := 0.15
def BACKFIELD_COUNT : ℕ := 3
def CENTER_BAND_RADIUS_MIN : R := 280

def MAP_WIDTH : R := 2660
def MAP_HEIGHT : R := 2100

/-- One of the three outer neutral templates. -/
structure NeutralTemplate (R : Type) where
  radiusLo : R
  radiusHi : R
  angleBias : R
  angleJitter : R

/-- `NEUTRAL_TEMPLATES` (cluster / belt / sprawl); each has
`angleBias: 0, angleJitter: Math.PI`. -/
def NEUTRAL_TEMPLATES (ops : JsOps R) : List (NeutralTemplate R) :=
  [⟨750, 950, 0, ops.pi⟩, ⟨900, 1200, 0, ops.pi⟩, ⟨800, 1300, 0, ops.pi⟩]

/-- Dead-code default used with `getD` where the source indexes an array at an
index that is in range on every reachable path. -/
def dummyLPt : LPt R := ⟨0, 0, "", SType.hq, none⟩

/-! ### Neutral placement helpers (`startingScenario.ts` lines 637-997) -/

/-- `canPlaceNeutral(candidate, placed, neutrals)`. -/
def canPlaceNeutral (ops : JsOps R) (candidate : Pt R) (placed : List (LPt R))
    (neutrals : List (Pt R)) : Bool :=
  placed.all (fun st => NEUTRAL_MIN_SEPARATION ≤ len ops st.pos candidate) &&
    neutrals.all (fun n => NEUTRAL_MIN_SEPARATION ≤ len ops n candidate)

/-- `tryPlaceNeutral({attempts, sampler, placed, neutrals, extraCheck})`:
rejection-sample up to `attempts` candidates. -/
def tryPlaceNeutral (ops : JsOps R) (attempts : ℕ) (sampler : ℕ → Pt R × ℕ)
    (placed : List (LPt R)) (neutrals : List (Pt R)) (extraCheck : Pt R → Bool)
    (s : ℕ) : Option (Pt R) × ℕ :=
  match attempts with
  | 0 => (none, s)
  | a + 1 =>
    let (c, s') := sampler s
    if !extraCheck c then tryPlaceNeutral ops a sampler placed neutrals extraCheck s'
    else if canPlaceNeutral ops c placed neutrals then (some ⟨c.x, c.y⟩, s')
    else tryPlaceNeutral ops a sampler placed neutrals extraCheck s'

/-- `Math.max(...l)` for a list that is nonempty on every reachable path
(`0` stands in for the empty spread; call sites where the empty case is
reachable handle it separately). -/
def listMax (l : List R) : R :=
  match l with
  | [] => 0
  | h :: t => t.foldl max h

/-- `Math.min(...l)`, same conventions as `listMax`. -/
def listMin (l : List R) : R :=
  match l with
  | [] => 0
  | h :: t => t.foldl min h

/-- The `reduce` pattern `(acc, x, idx) => f x > acc.bestDist ? {idx} : acc`
with `{idx: idx0, bestDist: -Infinity}` as initial accumulator: index of the
first strict maximum of `f` (`idx0` if the list is empty). -/
def argmaxD (f : α → R) (l : List α) (idx0 : ℕ) : ℕ :=
  (l.foldl
    (fun (acc : ℕ × Option R × ℕ) x =>
      let (bestIdx, best, i) := acc
      match best with
      | none => (i, some (f x), i + 1)
      | some b => if f x > b then (i, some (f x), i + 1) else (bestIdx, best, i + 1))
    (idx0, none, 0)).1

/-- Same for the first strict minimum (initial `bestDist: Infinity`). -/
def argminD (f : α → R) (l : List α) (idx0 : ℕ) : ℕ :=
  (l.foldl
    (fun (acc : ℕ × Option R × ℕ) x =>
      let (bestIdx, best, i) := acc
      match best with
      | none => (i, some (f x), i + 1)
      | some b => if f x < b then (i, some (f x), i + 1) else (bestIdx, best, i + 1))
    (idx0, none, 0)).1

/-- Stable insertion into a sorted list: `x` goes before the first element it
compares `le` to. -/
def insertStable (le : α → α → Bool) (x : α) : List α → List α
  | [] => [x]
  | y :: t => if le x y then x :: y :: t else y :: insertStable le x t

/-- Stable sort (JS `Array.prototype.sort` is stable): structural insertion
sort, which agrees with any stable sort on a total comparator. -/
def stableSortBy (le : α → α → Bool) (l : List α) : List α :=
  l.foldr (insertStable le) []

/-- Ascending numeric sort `(a, b) => a - b`. -/
def sortAsc (l : List R) : List R := stableSortBy (fun a b => a ≤ b) l

/-- `minAngleOffsetToWedge(point, hqs, center)`. -/
def minAngleOffsetToWedge (ops : JsOps R) (point : Pt R) (hqs : List (LPt R))
    (center : Pt R) : R :=
  if hqs.length = 0 then ops.pi
  else
    let wedgeArc := twoPi ops / (hqs.length : R)
    let hqAngles := sortAsc (hqs.map fun hq => ops.atan2 (hq.y - center.y) (hq.x - center.x))
    let wedgeCenters := hqAngles.map fun a => jsMod (a + wedgeArc / 2 + twoPi ops) (twoPi ops)
    let angle := jsMod (ops.atan2 (point.y - center.y) (point.x - center.x) + twoPi ops)
      (twoPi ops)
    wedgeCenters.foldl (fun best wc =>
      let diff := |clampAngle ops (angle - wc)|
      if diff < best then diff else best) ops.pi

/-- The per-band neutral counts of `computeNeutralStats`, for one hq:
the else-if chain sorts each neutral into near (`d ≤ 450`),
mid (`450 < d ≤ 900`) or far (`900 < d ≤ 1400`). -/
def bandCounts (ops : JsOps R) (neutrals : List (Pt R)) (hq : LPt R) : ℕ × ℕ × ℕ :=
  ((neutrals.filter fun n => len ops hq.pos n ≤ NEUTRAL_NEAR_RADIUS).length,
   (neutrals.filter fun n =>
      ¬len ops hq.pos n ≤ NEUTRAL_NEAR_RADIUS ∧ len ops hq.pos n ≤ NEUTRAL_MID_RADIUS).length,
   (neutrals.filter fun n =>
      ¬len ops hq.pos n ≤ NEUTRAL_MID_RADIUS ∧ len ops hq.pos n ≤ NEUTRAL_FAR_RADIUS).length)

/-- `playerNearestSums`: per hq, the sum of the two smallest
neutral distances (`dists.sort().slice(0, 2).reduce((a, b) => a + b, 0)`). -/
def nearestTwoSum (ops : JsOps R) (neutrals : List (Pt R)) (hq : LPt R) : R :=
  ((sortAsc (neutrals.map fun n => len ops n hq.pos)).take 2).foldl (· + ·) 0

/-- Results of `computeNeutralStats`.  The three range fields are `none` when
the JS value is the `-Infinity` produced by `Math.max()` over the empty count
arrays (which happens exactly when `neutrals` or `hqs` is empty; the counters
are only ever materialized inside `neutrals.forEach`/`orderedHqs.forEach`). -/
structure NeutralStatsResult (R : Type) where
  nearRange : Option R
  midRange : Option R
  nearMidRange : Option R
  centerCount : ℕ
  neutralAngleStdDevDeg : R
  neutralSpread : R

/-- `computeNeutralStats({neutrals, hqs, center})`. -/
def computeNeutralStats (ops : JsOps R) (neutrals : List (Pt R)) (hqs : List (LPt R))
    (center : Pt R) : NeutralStatsResult R :=
  let orderedHqs := stableSortBy (fun a b =>
    ops.atan2 (a.y - center.y) (a.x - center.x) ≤ ops.atan2 (b.y - center.y) (b.x - center.x)) hqs
  let counts := orderedHqs.map (bandCounts ops neutrals)
  let nearCounts := counts.map (·.1)
  let midCounts := counts.map (·.2.1)
  let playerNearestSums := hqs.map (nearestTwoSum ops neutrals)
  let neutralSpread :=
    if playerNearestSums.length = 0 then (0 : R)
    else listMax (playerNearestSums) - listMin (playerNearestSums)
  let centerCount := (neutrals.filter fun n => len ops n center ≤ CENTER_OCCUPANCY_RADIUS).length
  let angles := neutrals.map fun n => ops.atan2 (n.y - center.y) (n.x - center.x)
  let angleMean := if angles.length = 0 then (0 : R) else angles.foldl (· + ·) 0 / angles.length
  let angleVariance :=
    if 1 < angles.length then
      (angles.foldl (fun acc a => acc + clampAngle ops (a - angleMean) ^ 2) 0) / angles.length
    else (0 : R)
  let stdDev := ops.sqrt angleVariance * (180 / ops.pi)
  let nearR : List R := nearCounts.map (fun n => (n : R))
  let midR : List R := midCounts.map (fun n => (n : R))
  let nearMidR : List R := (nearCounts.zip midCounts).map (fun p => ((p.1 + p.2 : ℕ) : R))
  if neutrals = [] ∨ hqs = [] then
    ⟨none, none, none, centerCount, stdDev, neutralSpread⟩
  else
    ⟨some (listMax nearR - listMin nearR),
     some (listMax midR - listMin midR),
     some (listMax nearMidR - listMin nearMidR),
     centerCount, stdDev, neutralSpread⟩

/-- `scoreNeutrals({neutrals, hqs, center})`.  The result is `none` exactly
when the JS score is `-Infinity` (empty `neutrals` or `hqs`, where the band
ranges are `-Infinity`); on every reachable generator path it is finite. -/
def scoreNeutrals (ops : JsOps R) (neutrals : List (Pt R)) (hqs : List (LPt R))
    (center : Pt R) : Option R :=
  let stats := computeNeutralStats ops neutrals hqs center
  let anglePenalty := max 0 (5 - stats.neutralAngleStdDevDeg)
  let centerPenalty : R :=
    if stats.centerCount < NEUTRAL_CENTER_MIN then
      ((NEUTRAL_CENTER_MIN - stats.centerCount : ℕ) : R) * 40
    else if NEUTRAL_CENTER_MAX < stats.centerCount then
      ((stats.centerCount - NEUTRAL_CENTER_MAX : ℕ) : R) * 40
    else 0
  match stats.nearRange, stats.midRange, stats.nearMidRange with
  | some nearRange, some midRange, some nearMidRange =>
    some (nearRange * 10 + midRange * 8 + nearMidRange * 12 +
      stats.neutralSpread * 1.2 + anglePenalty * 50 + centerPenalty)
  | _, _, _ => none

/-- JS `<` with a `-Infinity` right operand (`none`): always false. -/
def ltNegInf (x : R) (b : Option R) : Bool :=
  match b with
  | none => false
  | some y => x < y

/-- `placeBackfieldNeutral({hq, hqs, center, placed, neutrals, rng})`. -/
def placeBackfieldNeutral (ops : JsOps R) (hq : LPt R) (hqs : List (LPt R))
    (center : Pt R) (placed : List (LPt R)) (neutrals : List (Pt R)) (s : ℕ) :
    Option (Pt R) × ℕ :=
  let angleFromCenter := ops.atan2 (hq.y - center.y) (hq.x - center.x)
  let (q, s1) := nextR (R := R) s
  let backAngle := angleFromCenter + (q - 0.5) * ops.pi
  tryPlaceNeutral ops 80
    (fun s =>
      let (radial, s1) := randomRange (R := R) 340 430 s
      let (q2, s2) := nextR (R := R) s1
      (project ops hq.x hq.y backAngle radial ((q2 - 0.5) * 60), s2))
    placed neutrals
    (fun c => NEUTRAL_WEDGE_OFFSET_MIN ≤ minAngleOffsetToWedge ops c (hq :: hqs) center)
    s1

/-- `placeCenterNeutral({center, placed, neutrals, hqs, rng})`. -/
def placeCenterNeutral (ops : JsOps R) (center : Pt R) (placed : List (LPt R))
    (neutrals : List (Pt R)) (hqs : List (LPt R)) (s : ℕ) : Option (Pt R) × ℕ :=
  tryPlaceNeutral ops 120
    (fun s =>
      let (radius, s1) := randomRange (R := R) 220 420 s
      let (q, s2) := nextR (R := R) s1
      (polar ops center radius (q * twoPi ops), s2))
    placed neutrals
    (fun c =>
      hqs.all (fun hq => NEUTRAL_NEAR_RADIUS + 40 ≤ len ops c hq.pos) &&
        NEUTRAL_WEDGE_OFFSET_MIN ≤ minAngleOffsetToWedge ops c hqs center)
    s

/-- `placeOuterNeutral({center, placed, neutrals, hqs, rng})`. -/
def placeOuterNeutral (ops : JsOps R) (center : Pt R) (placed : List (LPt R))
    (neutrals : List (Pt R)) (hqs : List (LPt R)) (s : ℕ) : Option (Pt R) × ℕ :=
  let (q, s1) := nextR (R := R) s
  let t := (NEUTRAL_TEMPLATES ops).getD (Int.toNat ⌊q * ((NEUTRAL_TEMPLATES ops).length : R)⌋)
    ⟨0, 0, 0, 0⟩
  tryPlaceNeutral ops 140
    (fun s =>
      let (radius, s1) := randomRange t.radiusLo t.radiusHi s
      let (q1, s2) := nextR (R := R) s1
      let (q2, s3) := nextR (R := R) s2
      (polar ops center radius (q1 * twoPi ops + (q2 - 0.5) * t.angleJitter + t.angleBias), s3))
    placed neutrals
    (fun c =>
      hqs.all (fun hq => NEUTRAL_NEAR_RADIUS + 40 ≤ len ops c hq.pos) &&
        NEUTRAL_WEDGE_OFFSET_MIN ≤ minAngleOffsetToWedge ops c hqs center)
    s1

/-- The candidate sampler of `improveNeutrals` (its `current` parameter is
unused in the source body). -/
def improveSampleCandidate (ops : JsOps R) (center : Pt R) (s : ℕ) : Pt R × ℕ :=
  let (q, s1) := nextR (R := R) s
  if q < 0.3 then
    let (radius, s2) := randomRange (R := R) 220 420 s1
    let (qa, s3) := nextR (R := R) s2
    (polar ops center radius (qa * twoPi ops), s3)
  else
    let (qt, s2) := nextR (R := R) s1
    let t := (NEUTRAL_TEMPLATES ops).getD (Int.toNat ⌊qt * ((NEUTRAL_TEMPLATES ops).length : R)⌋)
      ⟨0, 0, 0, 0⟩
    let (radius, s3) := randomRange t.radiusLo t.radiusHi s2
    let (qa, s4) := nextR (R := R) s3
    (polar ops center radius (qa * twoPi ops), s4)

/-- The 400-iteration loop of `improveNeutrals`. -/
def improveGo (ops : JsOps R) (placed hqs : List (LPt R)) (center : Pt R) :
    ℕ → List (Pt R) → Option R → ℕ → List (Pt R) × ℕ
  | 0, best, _, s => (best, s)
  | n + 1, best, bestScore, s =>
    let (qi, s1) := nextR (R := R) s
    let idx := Int.toNat ⌊qi * (best.length : R)⌋
    let (proposal, s2) := improveSampleCandidate ops center s1
    if minAngleOffsetToWedge ops proposal hqs center < NEUTRAL_WEDGE_OFFSET_MIN then
      improveGo ops placed hqs center n best bestScore s2
    else
      let without := best.eraseIdx idx
      if !canPlaceNeutral ops proposal placed without then
        improveGo ops placed hqs center n best bestScore s2
      else
        let next := without ++ [(⟨proposal.x, proposal.y⟩ : Pt R)]
        let score := scoreNeutrals ops next hqs center
        match score, bestScore with
        | some _, none =>
          -- JS: finite < -Infinity is false
          improveGo ops placed hqs center n best bestScore s2
        | some sc, some bs =>
          if sc < bs then improveGo ops placed hqs center n next (some sc) s2
          else improveGo ops placed hqs center n best bestScore s2
        | none, _ =>
          -- `next` is nonempty, so its score is `none` only when `hqs = []`;
          -- then `bestScore` is `none` too and -Infinity < -Infinity is false
          improveGo ops placed hqs center n best bestScore s2

/-- `improveNeutrals({neutrals, placed, hqs, center, rng})`. -/
def improveNeutrals (ops : JsOps R) (neutrals : List (Pt R)) (placed hqs : List (LPt R))
    (center : Pt R) (s : ℕ) : List (Pt R) × ℕ :=
  improveGo ops placed hqs center 400 neutrals (scoreNeutrals ops neutrals hqs center) s

/-- `nearestSums()` inside `balanceNeutralReach`. -/
def nearestSums (ops : JsOps R) (hqs : List (LPt R)) (neutrals : List (Pt R)) : List R :=
  hqs.map (nearestTwoSum ops neutrals)

/-- The inner 200-attempt proposal search of `balanceNeutralReach`. -/
def balanceProposal (ops : JsOps R) (placed hqs : List (LPt R)) (center : Pt R)
    (targetHq : LPt R) (neutrals : List (Pt R)) (replaceIdx : ℕ) :
    ℕ → ℕ → Option (Pt R) × ℕ
  | 0, s => (none, s)
  | t + 1, s =>
    let (q1, s1) := nextR (R := R) s
    let angle := q1 * twoPi ops
    let (radius, s2) := randomRange (R := R) 260 720 s1
    let candidate := polar ops targetHq.pos radius angle
    if minAngleOffsetToWedge ops candidate hqs center < NEUTRAL_WEDGE_OFFSET_MIN then
      balanceProposal ops placed hqs center targetHq neutrals replaceIdx t s2
    else if !canPlaceNeutral ops candidate placed (neutrals.eraseIdx replaceIdx) then
      balanceProposal ops placed hqs center targetHq neutrals replaceIdx t s2
    else (some ⟨candidate.x, candidate.y⟩, s2)

/-- The outer `while (attempts++ < 200)` loop of `balanceNeutralReach`.
When `hqs = []`, JS computes `Math.max() - Math.min() = -Infinity ≤ 120` and
breaks immediately; the empty match arm mirrors that. -/
def balanceGo (ops : JsOps R) (placed hqs : List (LPt R)) (center : Pt R) :
    ℕ → List (Pt R) → ℕ → List (Pt R) × ℕ
  | 0, neutrals, s => (neutrals, s)
  | n + 1, neutrals, s =>
    let sums := nearestSums ops hqs neutrals
    match sums with
    | [] => (neutrals, s)
    | _ :: _ =>
      let mx := listMax sums
      let mn := listMin sums
      let currentSpread := mx - mn
      if currentSpread ≤ 120 then (neutrals, s)
      else
        let targetIdx := sums.indexOf mx
        let targetHq := (hqs.get? targetIdx).getD dummyLPt
        let replaceIdx := argmaxD (fun nn => len ops nn targetHq.pos) neutrals 0
        let (proposal, s2) :=
          balanceProposal ops placed hqs center targetHq neutrals replaceIdx 200 s
        match proposal with
        | none => (neutrals, s2)
        | some p =>
          let newNeutrals := neutrals.set replaceIdx p
          let newSums := nearestSums ops hqs newNeutrals
          let newSpread := listMax newSums - listMin newSums
          if currentSpread ≤ newSpread then
            balanceGo ops placed hqs center n neutrals s2
          else
            balanceGo ops placed hqs center n newNeutrals s2

/-- `balanceNeutralReach({neutrals, placed, hqs, center, rng})`. -/
def balanceNeutralReach (ops : JsOps R) (neutrals : List (Pt R)) (placed hqs : List (LPt R))
    (center : Pt R) (s : ℕ) : List (Pt R) × ℕ :=
  balanceGo ops placed hqs center 200 neutrals s

/-! ### The post-normalization rebalancer (`neutralRebalancer.ts`)

Its points are plain `Vec2 = {x, y}` values (`Pt`).  The source mutates the
`neutralPositions` array in place and never writes to `hqPositions` or
`allStructurePositions`; the embedding returns all three arrays so that this
can be stated. -/

/-- `length(v) = Math.hypot(v.x, v.y)`. -/
def vecLen (ops : JsOps R) (v : Pt R) : R := ops.hypot v.x v.y

/-- `sub(a, b)`. -/
def vsub (a b : Pt R) : Pt R := ⟨a.x - b.x, a.y - b.y⟩

/-- `add(a, b)`. -/
def vadd (a b : Pt R) : Pt R := ⟨a.x + b.x, a.y + b.y⟩

/-- `fromAngle(angle, radius)`. -/
def fromAngle (ops : JsOps R) (angle radius : R) : Pt R :=
  ⟨ops.cos angle * radius, ops.sin angle * radius⟩

/-- `dist(a, b)` of the rebalancer (same as the generator's `length`). -/
def rdist (ops : JsOps R) (a b : Pt R) : R := ops.hypot (a.x - b.x) (a.y - b.y)

/-- `nearestTwoSumsByPlayer(hqs, neutrals)`: track the two smallest distances
(`d1 ≤ d2`); both start at `Infinity` (`none`), and missing values fall back
to `99999` / `d1`. -/
def nearestTwoSumsByPlayer (ops : JsOps R) (hqs neutrals : List (Pt R)) : List R :=
  hqs.map fun hq =>
    let pair := neutrals.foldl
      (fun (acc : Option R × Option R) n =>
        let d := rdist ops hq n
        match acc with
        | (none, _) => (some d, none)
        | (some d1, none) => if d < d1 then (some d, some d1) else (some d1, some d)
        | (some d1, some d2) =>
          if d < d1 then (some d, some d1)
          else if d < d2 then (some d1, some d) else (some d1, some d2))
      (none, none)
    let d1 := pair.1.getD 99999
    let d2 := pair.2.getD d1
    d1 + d2

/-- `neutralSpreadMetric(hqs, neutrals)`; on every reachable path `hqs` is
nonempty (the empty case returns before the metric is consulted), so the
`listMax`/`listMin` defaults are dead. -/
def neutralSpreadMetric (ops : JsOps R) (hqs neutrals : List (Pt R)) : List R × R :=
  let sums := nearestTwoSumsByPlayer ops hqs neutrals
  (sums, listMax sums - listMin sums)

/-- `isolationScoresByPlayer(hqs, neutrals)`:
`avg(nearest 3 neutrals) + avg(nearest 2 enemy hqs)` per hq, with the
`?? 99999` / `?? previous` fallbacks of the source. -/
def isolationScoresByPlayer (ops : JsOps R) (hqs neutrals : List (Pt R)) : List R :=
  (List.range hqs.length).map fun i =>
    let hq := (hqs.get? i).getD ⟨0, 0⟩
    let dists := sortAsc (((List.range hqs.length).filter (· ≠ i)).map
      fun j => rdist ops hq ((hqs.get? j).getD ⟨0, 0⟩))
    let e1 := (dists.get? 0).getD 99999
    let e2 := (dists.get? 1).getD e1
    let enemyAvg := (e1 + e2) / 2
    let ndists := sortAsc (neutrals.map fun n => rdist ops hq n)
    let n1 := (ndists.get? 0).getD 99999
    let n2 := (ndists.get? 1).getD n1
    let n3 := (ndists.get? 2).getD n2
    (n1 + n2 + n3) / 3 + enemyAvg

/-- `isolationRangeMetric(hqs, neutrals)`. -/
def isolationRangeMetric (ops : JsOps R) (hqs neutrals : List (Pt R)) : List R × R :=
  let scores := isolationScoresByPlayer ops hqs neutrals
  (scores, listMax scores - listMin scores)

/-- `hasMinSeparation(neutrals, idxToMove, newPos, allStructures, minSep)`. -/
def hasMinSeparation (ops : JsOps R) (neutrals : List (Pt R)) (idxToMove : ℕ)
    (newPos : Pt R) (allStructures : List (Pt R)) (minSep : R) : Bool :=
  ((List.range neutrals.length).all fun i =>
    i = idxToMove || minSep ≤ rdist ops newPos ((neutrals.get? i).getD ⟨0, 0⟩)) &&
    allStructures.all (fun st => minSep ≤ rdist ops newPos st)

/-- `RebalanceOptions`.  `maxCenterCount` is compared against a count that can
transiently be computed from a caller-supplied (possibly inconsistent) cache,
so counts are carried as integers. -/
structure RebalanceOptions (R : Type) where
  neutralSpreadLimit : R
  isolationRangeLimit : R
  centerRadius : R
  maxCenterCount : ℤ
  minNeutralSeparation : R
  maxDistanceToCenter : R
  maxIterations : ℕ

/-- `overagePenalty(spreadValue, isoValue)`. -/
def overagePenalty (opts : RebalanceOptions R) (spreadValue isoValue : R) : R :=
  max 0 (spreadValue - opts.neutralSpreadLimit) + max 0 (isoValue - opts.isolationRangeLimit)

/-- `isCenterNeutral(p)`. -/
def isCenterNeutral (ops : JsOps R) (opts : RebalanceOptions R) (p : Pt R) : Bool :=
  rdist ops p ⟨MAP_WIDTH / 2, MAP_HEIGHT / 2⟩ ≤ opts.centerRadius

/-- `innerRadius = Math.max(minNeutralSeparation + 40, 200)`. -/
def rebInnerRadius (opts : RebalanceOptions R) : R := max (opts.minNeutralSeparation + 40) 200

/-- `samplePosNearHQ(hq)`. -/
def samplePosNearHQ (ops : JsOps R) (opts : RebalanceOptions R) (hq : Pt R) (s : ℕ) :
    Pt R × ℕ :=
  let center : Pt R := ⟨MAP_WIDTH / 2, MAP_HEIGHT / 2⟩
  let fromCenter := vsub hq center
  let towardCenterAngle := ops.atan2 fromCenter.y fromCenter.x + ops.pi
  let (qa, s1) := randomRange (-(ops.pi / 3)) (ops.pi / 3) s
  let angle := towardCenterAngle + qa
  let (r, s2) := randomRange (rebInnerRadius opts) (rebInnerRadius opts + 320) s1
  (vadd hq (fromAngle ops angle r), s2)

/-- The candidate record `bestMove` accumulates. -/
structure BestMove (R : Type) where
  candidate : Pt R
  spreadPer : List R
  spread : R
  isoPer : List R
  isoRange : R
  penalty : R

/-- The loop-invariant part of one rebalancer iteration that
`considerCandidate` closes over. -/
structure RebIterCtx (R : Type) where
  hqs : List (Pt R)
  structs : List (Pt R)
  neutrals : List (Pt R)
  idxToMove : ℕ
  oldPos : Pt R
  targetSpread : Bool
  spread : R
  isoRange : R
  penalty : R
  centerCount : ℤ

/-- `considerCandidate(candidate)` (`neutralRebalancer.ts` lines 189-230):
filter the candidate through the validity checks and, when acceptable,
fold it into `bestMove`. -/
def considerCandidate (ops : JsOps R) (opts : RebalanceOptions R) (ctx : RebIterCtx R)
    (candidate : Pt R) (best : Option (BestMove R)) : Option (BestMove R) :=
  let center : Pt R := ⟨MAP_WIDTH / 2, MAP_HEIGHT / 2⟩
  if opts.maxDistanceToCenter < vecLen ops (vsub candidate center) then best
  else if candidate.x < 0 || MAP_WIDTH < candidate.x || candidate.y < 0 ||
      MAP_HEIGHT < candidate.y then best
  else if !hasMinSeparation ops ctx.neutrals ctx.idxToMove candidate ctx.structs
      opts.minNeutralSeparation then best
  else
    let nextCenterCount := ctx.centerCount -
      (if isCenterNeutral ops opts ctx.oldPos then 1 else 0) +
      (if isCenterNeutral ops opts candidate then 1 else 0)
    if opts.maxCenterCount < nextCenterCount then best
    else
      let moved := ctx.neutrals.set ctx.idxToMove candidate
      let newSpreadMetric := neutralSpreadMetric ops ctx.hqs moved
      let newIsoMetric := isolationRangeMetric ops ctx.hqs moved
      let newPenalty := overagePenalty opts newSpreadMetric.2 newIsoMetric.2
      let targetImproved :=
        if ctx.targetSpread then newSpreadMetric.2 < ctx.spread
        else newIsoMetric.2 < ctx.isoRange
      let nonTargetWithinLimit :=
        if ctx.targetSpread then newIsoMetric.2 ≤ opts.isolationRangeLimit
        else newSpreadMetric.2 ≤ opts.neutralSpreadLimit
      let acceptable := newPenalty < ctx.penalty ||
        (newPenalty = ctx.penalty && targetImproved && nonTargetWithinLimit)
      if !acceptable then best
      else
        let betterThanBest :=
          match best with
          | none => true
          | some bm =>
            newPenalty < bm.penalty ||
              (newPenalty = bm.penalty &&
                (if ctx.targetSpread then newSpreadMetric.2 < bm.spread
                 else newIsoMetric.2 < bm.isoRange))
        if betterThanBest then
          some ⟨candidate, newSpreadMetric.1, newSpreadMetric.2, newIsoMetric.1,
            newIsoMetric.2, newPenalty⟩
        else best

/-- The 12-attempt sampling loop (`for (let attempt = 0; attempt < 12; …)`)
with its `bestMove.penalty === 0` early exit. -/
def rebSampleLoop (ops : JsOps R) (opts : RebalanceOptions R) (ctx : RebIterCtx R)
    (targetHQ : Pt R) : ℕ → Option (BestMove R) → ℕ → Option (BestMove R) × ℕ
  | 0, best, s => (best, s)
  | a + 1, best, s =>
    match considerCandidate ops opts ctx (samplePosNearHQ ops opts targetHQ s).1 best with
    | some bm =>
      if bm.penalty = 0 then (some bm, (samplePosNearHQ ops opts targetHQ s).2)
      else rebSampleLoop ops opts ctx targetHQ a (some bm) (samplePosNearHQ ops opts targetHQ s).2
    | none => rebSampleLoop ops opts ctx targetHQ a none (samplePosNearHQ ops opts targetHQ s).2

/-- The deterministic fallback grid (7 angle offsets × 4 radii). -/
def rebFallback (ops : JsOps R) (opts : RebalanceOptions R) (ctx : RebIterCtx R)
    (targetHQ : Pt R) : Option (BestMove R) :=
  let center : Pt R := ⟨MAP_WIDTH / 2, MAP_HEIGHT / 2⟩
  let towardCenterAngle := ops.atan2 (vsub targetHQ center).y (vsub targetHQ center).x + ops.pi
  let inner := rebInnerRadius opts
  let fallbackAngles : List R :=
    [-(ops.pi / 2), -(ops.pi / 3), -(ops.pi / 6), 0, ops.pi / 6, ops.pi / 3, ops.pi / 2]
  let fallbackRadii : List R := [inner + 20, inner + 140, inner + 260, inner + 380]
  fallbackAngles.foldl
    (fun best offset =>
      fallbackRadii.foldl
        (fun best r =>
          considerCandidate ops opts ctx
            (vadd targetHQ (fromAngle ops (towardCenterAngle + offset) r)) best)
        best)
    none

/-- The search for a move: twelve samples near the target hq, then the
deterministic fallback grid when no sample was accepted. -/
def rebSearch (ops : JsOps R) (opts : RebalanceOptions R) (ctx : RebIterCtx R)
    (targetHQ : Pt R) (s : ℕ) : Option (BestMove R) × ℕ :=
  match (rebSampleLoop ops opts ctx targetHQ 12 none s).1 with
  | some bm => (some bm, (rebSampleLoop ops opts ctx targetHQ 12 none s).2)
  | none => (rebFallback ops opts ctx targetHQ, (rebSampleLoop ops opts ctx targetHQ 12 none s).2)

/-- The evolving state of the rebalancer's main loop. -/
structure RebState (R : Type) where
  neutrals : List (Pt R)
  spreadPer : List R
  spread : R
  isoPer : List R
  isoRange : R
  penalty : R
  centerCount : ℤ
  rng : ℕ

/-- The element-valued `reduce` pattern
`(acc, idx) => d > acc.best ? {best: d, idx} : acc` with
`{best: -Infinity, idx: l[0] ?? d₀}`: the first element attaining the strict
maximum of `f` (the default when the list is empty). -/
def argmaxElem (f : α → R) (l : List α) (d₀ : α) : α :=
  (l.foldl
    (fun (acc : α × Option R) x =>
      match acc.2 with
      | none => (x, some (f x))
      | some b => if f x > b then (x, some (f x)) else acc)
    (d₀, none)).1

/-- First index of the maximum of a list (the source's
`for (i…) if (perPlayer[i] > perPlayer[worstIdx]) worstIdx = i` scan). -/
def idxOfMax (l : List R) : ℕ :=
  (l.foldl
    (fun (acc : ℕ × Option R × ℕ) x =>
      let (bestIdx, best, i) := acc
      match best with
      | none => (i, some x, i + 1)
      | some b => if x > b then (i, some x, i + 1) else (bestIdx, best, i + 1))
    (0, none, 0)).1

/-- `targetSpread = isoOver <= spreadOver`: which metric the iteration
targets. -/
def rebTargetSpread (opts : RebalanceOptions R) (st : RebState R) : Bool :=
  st.isoRange - opts.isolationRangeLimit ≤ st.spread - opts.neutralSpreadLimit

/-- The worst-off player's hq (`hqPositions[worstIdx]`, with the scan of
the targeted per-player metric picking `worstIdx`). -/
def rebTargetHQ (opts : RebalanceOptions R) (hqs : List (Pt R)) (st : RebState R) : Pt R :=
  (hqs.get? (idxOfMax (if rebTargetSpread opts st then st.spreadPer else st.isoPer))).getD ⟨0, 0⟩

/-- The indices the iteration may move: non-center neutrals, center ones
too once `allowCenterMoves` holds, and everything as a fallback when the
filter leaves nothing.  (`iter > maxIterations / 2` on JS numbers is
`maxIterations < 2 * iter` exactly.) -/
def rebMovable (ops : JsOps R) (opts : RebalanceOptions R) (st : RebState R)
    (iter : ℕ) : List ℕ :=
  let allowCenterMoves : Bool :=
    80 < st.spread - opts.neutralSpreadLimit || opts.maxIterations < 2 * iter
  let movable₀ := (List.range st.neutrals.length).filter fun i =>
    allowCenterMoves || !isCenterNeutral ops opts ((st.neutrals.get? i).getD ⟨0, 0⟩)
  if movable₀.isEmpty then List.range st.neutrals.length else movable₀

/-- The movable neutral farthest from the target hq. -/
def rebIdxToMove (ops : JsOps R) (opts : RebalanceOptions R) (hqs : List (Pt R))
    (st : RebState R) (iter : ℕ) : ℕ :=
  argmaxElem (fun i => rdist ops (rebTargetHQ opts hqs st) ((st.neutrals.get? i).getD ⟨0, 0⟩))
    (rebMovable ops opts st iter) ((rebMovable ops opts st iter).headD 0)

/-- The position the chosen neutral is moved away from. -/
def rebOldPos (ops : JsOps R) (opts : RebalanceOptions R) (hqs : List (Pt R))
    (st : RebState R) (iter : ℕ) : Pt R :=
  (st.neutrals.get? (rebIdxToMove ops opts hqs st iter)).getD ⟨0, 0⟩

/-- The iteration context `considerCandidate` closes over. -/
def rebCtx (ops : JsOps R) (opts : RebalanceOptions R) (hqs structs : List (Pt R))
    (st : RebState R) (iter : ℕ) : RebIterCtx R :=
  ⟨hqs, structs, st.neutrals, rebIdxToMove ops opts hqs st iter,
   rebOldPos ops opts hqs st iter, rebTargetSpread opts st, st.spread, st.isoRange,
   st.penalty, st.centerCount⟩

/-- Applying the search result: a `None` leaves every field but the rng
untouched; a `Some` writes the move into `neutrals[idx]` and refreshes the
cached metrics and the tracked center count. -/
def rebStepApply (ops : JsOps R) (opts : RebalanceOptions R) (st : RebState R)
    (idx : ℕ) (old : Pt R) (bs : Option (BestMove R) × ℕ) : RebState R :=
  match bs.1 with
  | none => { st with rng := bs.2 }
  | some bm =>
    { neutrals := st.neutrals.set idx bm.candidate
      spreadPer := bm.spreadPer
      spread := bm.spread
      isoPer := bm.isoPer
      isoRange := bm.isoRange
      penalty := bm.penalty
      centerCount := st.centerCount -
        (if isCenterNeutral ops opts old then 1 else 0) +
        (if isCenterNeutral ops opts bm.candidate then 1 else 0)
      rng := bs.2 }

/-- One iteration of the rebalancer's main loop (`neutralRebalancer.ts`
lines 155-275, without the final break test): pick the worst-off player,
pick the movable neutral farthest from its hq, search for an acceptable
candidate, and apply the best one found. -/
def rebalanceStep (ops : JsOps R) (opts : RebalanceOptions R) (hqs structs : List (Pt R))
    (iter : ℕ) (st : RebState R) : RebState R :=
  rebStepApply ops opts st (rebIdxToMove ops opts hqs st iter)
    (rebOldPos ops opts hqs st iter)
    (rebSearch ops opts (rebCtx ops opts hqs structs st iter) (rebTargetHQ opts hqs st) st.rng)

/-- The main loop with its end-of-iteration break test. -/
def rebalanceLoop (ops : JsOps R) (opts : RebalanceOptions R) (hqs structs : List (Pt R)) :
    ℕ → ℕ → RebState R → RebState R
  | _, 0, st => st
  | iter, fuel + 1, st =>
    if (rebalanceStep ops opts hqs structs iter st).spread ≤ opts.neutralSpreadLimit ∧
        (rebalanceStep ops opts hqs structs iter st).isoRange ≤ opts.isolationRangeLimit then
      rebalanceStep ops opts hqs structs iter st
    else
      rebalanceLoop ops opts hqs structs (iter + 1) fuel
        (rebalanceStep ops opts hqs structs iter st)

/-- `rebalanceNeutrals(hqPositions, neutralPositions, allStructurePositions,
opts)`.  The source mutates only `neutralPositions`; the embedding returns
the three arrays (hq and structure arrays passed through unchanged, which is
immediate from the source: they are never assigned) plus the RNG state. -/
def rebalanceNeutrals (ops : JsOps R) (hqPositions neutralPositions allStructurePositions :
    List (Pt R)) (opts : RebalanceOptions R) (s : ℕ) :
    List (Pt R) × List (Pt R) × List (Pt R) × ℕ :=
  if hqPositions.length = 0 ∨ neutralPositions.length = 0 then
    (hqPositions, neutralPositions, allStructurePositions, s)
  else
    let m0 := neutralSpreadMetric ops hqPositions neutralPositions
    let i0 := isolationRangeMetric ops hqPositions neutralPositions
    let penalty := overagePenalty opts m0.2 i0.2
    let centerCount : ℤ :=
      ((neutralPositions.filter (isCenterNeutral ops opts)).length : ℤ)
    if m0.2 ≤ opts.neutralSpreadLimit ∧ i0.2 ≤ opts.isolationRangeLimit then
      (hqPositions, neutralPositions, allStructurePositions, s)
    else
      let stF := rebalanceLoop ops opts hqPositions allStructurePositions 0
        opts.maxIterations ⟨neutralPositions, m0.1, m0.2, i0.1, i0.2, penalty, centerCount, s⟩
      (hqPositions, stF.neutrals, allStructurePositions, stF.rng)

/-! ### The generator (`startingScenario.ts` lines 999-1670) -/

/-- `Player` records. -/
structure Player where
  id : String
  name : String
  color : String
deriving DecidableEq, Repr

/-- `Structure` (`structures.ts`): the fields the generator populates. -/
structure Structure (R : Type) where
  id : String
  type : SType
  x : R
  y : R
  ownerId : Option String
  label : String
  playerColor : String
  size : R
  droneCount : Option R
  droneCapacity : Option R
  droneGenerationRate : Option R
deriving DecidableEq, Repr

/-- The value returned by `generateStartingScenario`. -/
structure Scenario (R : Type) where
  players : List Player
  structures : List (Structure R)
  activePlayerIndex : ℕ
deriving DecidableEq, Repr

def PLAYER_COLORS : List String :=
  ["#dc3545", "#28a745", "#17a2b8", "#ffc107", "#6f42c1"]

def NEUTRAL_COLORS : List String := ["#969aa6", "#b0b4b8"]

/-- `players = PLAYER_COLORS.map((color, i) => ({id: p(i+1), …}))`. -/
def mkPlayers : List Player :=
  (List.range PLAYER_COLORS.length).map fun i =>
    ⟨"p" ++ toString (i + 1), "Player " ++ toString (i + 1), PLAYER_COLORS.getD i ""⟩

/-- `sizeByType`. -/
def sizeByType : SType → R
  | SType.hq => 25
  | SType.foundry => 24
  | SType.reactor => 25

/-- The map center `{x: MAP_WIDTH / 2, y: MAP_HEIGHT / 2}`. -/
def mapCenter : Pt R := ⟨MAP_WIDTH / 2, MAP_HEIGHT / 2⟩

/-- `ringRadius = HQ_HQ_MIN_DISTANCE / (2 * Math.sin(Math.PI / NUM_PLAYERS))`. -/
def hqRingRadius (ops : JsOps R) : R :=
  HQ_HQ_MIN_DISTANCE / (2 * ops.sin (ops.pi / (NUM_PLAYERS : R)))

/-- The HQ ring (`startingScenario.ts` lines 1034-1039): HQ `i` at angle
`rotationOffset + (i * TWO_PI) / NUM_PLAYERS` on the ring of radius
`hqRingRadius` around the map center. -/
def buildHqs (ops : JsOps R) (rotationOffset : R) : List (LPt R) :=
  (List.range NUM_PLAYERS).map fun i =>
    let theta := rotationOffset + ((i : ℕ) : R) * twoPi ops / (NUM_PLAYERS : R)
    let p := polar ops (mapCenter (R := R)) (hqRingRadius ops) theta
    let pid : String := "p" ++ toString (i + 1 : ℕ)
    ⟨p.x, p.y, pid ++ "-hq", SType.hq, some pid⟩

/-- The 60-try rejection loop for one satellite slot (lines 1052-1084). -/
def satTryLoop (ops : JsOps R) (playerId : String) (anchor : LPt R)
    (enemyHqs placed : List (LPt R)) (baseDir : R) (sats : List (Pt R)) :
    ℕ → ℕ → Option (Pt R) × ℕ
  | 0, s => (none, s)
  | t + 1, s =>
    let (q1, s1) := nextR (R := R) s
    let off := (q1 - 0.5) * 2 * SAT_ANGLE_SPREAD ops
    let angle := baseDir + off
    let (q2, s2) := nextR (R := R) s1
    let r := CLUSTER_DISTANCE_MIN +
      (CLUSTER_DISTANCE_MAX - CLUSTER_DISTANCE_MIN) * (0.35 + 0.65 * q2)
    let pos := polar ops anchor.pos r angle
    let distToOwn := r
    let reject : Bool :=
      (distToOwn < CLUSTER_DISTANCE_MIN || CLUSTER_DISTANCE_MAX < distToOwn) ||
      (sats.any fun sat => len ops sat pos < CLUSTER_MIN_SEPARATION) ||
      (let angleToAnchor := ops.atan2 (pos.y - anchor.y) (pos.x - anchor.x)
       sats.any fun sat =>
         |clampAngle ops (ops.atan2 (sat.y - anchor.y) (sat.x - anchor.x) - angleToAnchor)| <
           SAT_MIN_ANGLE_SEP ops) ||
      -- `Math.min(...[]) = Infinity` makes the foreign-margin test pass
      -- vacuously when there are no enemy hqs
      (match enemyHqs.map (fun hq => len ops hq.pos pos) with
       | [] => false
       | h :: t => t.foldl min h - distToOwn < CLUSTER_FOREIGN_MARGIN) ||
      (enemyHqs.any fun hq => len ops hq.pos pos < CROSS_PLAYER_SONAR_BUFFER) ||
      (placed.any fun st =>
        st.ownerId ≠ some playerId && len ops st.pos pos < CLUSTER_MIN_SEPARATION)
    if reject then satTryLoop ops playerId anchor enemyHqs placed baseDir sats t s2
    else (some pos, s2)

/-- The three satellite slots for one player (`for (let s = 0; …)`), each
run through the 60-try loop; a failed slot leaves `sats` shorter. -/
def satSlots (ops : JsOps R) (playerId : String) (anchor : LPt R)
    (enemyHqs placed : List (LPt R)) (baseDir : R) :
    ℕ → List (Pt R) → ℕ → List (Pt R) × ℕ
  | 0, sats, s => (sats, s)
  | n + 1, sats, s =>
    let (r, s') := satTryLoop ops playerId anchor enemyHqs placed baseDir sats 60 s
    match r with
    | some pos => satSlots ops playerId anchor enemyHqs placed baseDir n (sats ++ [pos]) s'
    | none => satSlots ops playerId anchor enemyHqs placed baseDir n sats s'

/-- The labeled satellite cluster for one player, pushed only when all three
slots were filled (lines 1087-1106). -/
def satCluster (playerId : String) (sats : List (Pt R)) : List (LPt R) :=
  if sats.length = 3 then
    (List.zip sats [("foundry-a", SType.foundry), ("foundry-b", SType.foundry),
      ("reactor", SType.reactor)]).map fun p =>
      ⟨p.1.x, p.1.y, playerId ++ "-" ++ p.2.1, p.2.2, some playerId⟩
  else []

/-- The per-player loop of the cluster sampler (lines 1043-1107): threads
`placed` from player to player. -/
def satStage (ops : JsOps R) (players : List Player) (hqs : List (LPt R)) :
    ℕ → List (LPt R) → ℕ → List (LPt R) × ℕ
  | 0, placed, s => (placed, s)
  | n + 1, placed, s =>
    let i := NUM_PLAYERS - (n + 1)
    let player := players.getD i ⟨"", "", ""⟩
    let anchor := hqs.getD i (dummyLPt (R := R))
    let enemyHqs := hqs.filter fun hq => hq.ownerId ≠ some player.id
    let baseDir := ops.atan2 ((mapCenter (R := R)).y - anchor.y)
      ((mapCenter (R := R)).x - anchor.x)
    let (sats, s') := satSlots ops player.id anchor enemyHqs placed baseDir 3 [] s
    satStage ops players hqs n (placed ++ satCluster player.id sats) s'

/-- The small center cluster (lines 1112-1115):
`for (i = 0; i < 3 && neutrals.length < NEUTRAL_COUNT; i++)`. -/
def centerClusterStage (ops : JsOps R) (placed hqs : List (LPt R)) (center : Pt R) :
    ℕ → List (Pt R) → ℕ → List (Pt R) × ℕ
  | 0, ns, s => (ns, s)
  | n + 1, ns, s =>
    if NEUTRAL_COUNT ≤ ns.length then (ns, s)
    else
      let (c, s') := placeCenterNeutral ops center placed ns hqs s
      match c with
      | some p => centerClusterStage ops placed hqs center n (ns ++ [p]) s'
      | none => centerClusterStage ops placed hqs center n ns s'

/-- The backfield pass over `shuffledHqs.take min(BACKFIELD_COUNT, len)`
(lines 1118-1130). -/
def backfieldStage (ops : JsOps R) (placed hqs : List (LPt R)) (center : Pt R) :
    List (LPt R) → List (Pt R) → ℕ → List (Pt R) × ℕ
  | [], ns, s => (ns, s)
  | hq :: rest, ns, s =>
    if NEUTRAL_COUNT ≤ ns.length then (ns, s)
    else
      let (b, s') := placeBackfieldNeutral ops hq hqs center placed ns s
      match b with
      | some p => backfieldStage ops placed hqs center rest (ns ++ [p]) s'
      | none => backfieldStage ops placed hqs center rest ns s'

/-- The mid fill `while (neutralPlacements.length < NEUTRAL_COUNT)` loop
(lines 1133-1153).  (`playerIdx` is computed but unused in the source.)
Each iteration either pushes one neutral or breaks, so `NEUTRAL_COUNT`
iterations of fuel suffice; the length test keeps extra fuel inert. -/
def midFillStage (ops : JsOps R) (placed hqs : List (LPt R)) (center : Pt R) :
    ℕ → List (Pt R) → ℕ → List (Pt R) × ℕ
  | 0, ns, s => (ns, s)
  | n + 1, ns, s =>
    if NEUTRAL_COUNT ≤ ns.length then (ns, s)
    else
      let (qa, s1) := nextR (R := R) s
      let targetAngle := qa * twoPi ops
      let (mid, s2) := tryPlaceNeutral ops 140
        (fun s =>
          let (radius, s') := randomRange (R := R) 880 1150 s
          (polar ops center radius targetAngle, s'))
        placed ns
        (fun c => hqs.all fun hq => NEUTRAL_NEAR_RADIUS - 30 ≤ len ops c hq.pos)
        s1
      match mid with
      | some m => midFillStage ops placed hqs center n (ns ++ [m]) s2
      | none =>
        let (filler, s3) := placeOuterNeutral ops center placed ns hqs s2
        match filler with
        | some f => midFillStage ops placed hqs center n (ns ++ [f]) s3
        | none => (ns, s3)

/-- The relaxed top-up `while (length < NEUTRAL_COUNT && fillAttempts++ < 600)`
loop (lines 1172-1184). -/
def relaxedTopUpStage (ops : JsOps R) (placed hqs : List (LPt R)) (center : Pt R) :
    ℕ → List (Pt R) → ℕ → List (Pt R) × ℕ
  | 0, ns, s => (ns, s)
  | n + 1, ns, s =>
    if NEUTRAL_COUNT ≤ ns.length then (ns, s)
    else
      let (qa, s1) := nextR (R := R) s
      let angle := qa * twoPi ops
      let (radius, s2) := randomRange CENTER_BAND_RADIUS_MIN NEUTRAL_FAR_RADIUS s1
      let candidate := polar ops center radius angle
      if candidate.x < 0 || MAP_WIDTH < candidate.x || candidate.y < 0 ||
          MAP_HEIGHT < candidate.y then
        relaxedTopUpStage ops placed hqs center n ns s2
      else if minAngleOffsetToWedge ops candidate hqs center <
          NEUTRAL_WEDGE_OFFSET_MIN * 0.5 then
        relaxedTopUpStage ops placed hqs center n ns s2
      else if !canPlaceNeutral ops candidate placed ns then
        relaxedTopUpStage ops placed hqs center n ns s2
      else relaxedTopUpStage ops placed hqs center n (ns ++ [⟨candidate.x, candidate.y⟩]) s2

/-- The `reduce` with `{idx: -1, bestDist: -Infinity}` returning `-1` on an
empty array: first index of the strict maximum, if any. -/
def argmaxIdxOpt (f : α → R) (l : List α) : Option ℕ :=
  (l.foldl
    (fun (acc : Option ℕ × Option R × ℕ) x =>
      let (bestIdx, best, i) := acc
      match best with
      | none => (some i, some (f x), i + 1)
      | some b => if f x > b then (some i, some (f x), i + 1) else (bestIdx, best, i + 1))
    (none, none, 0)).1

/-- Dual of `argmaxIdxOpt` (`{best: Infinity, idx: -1}`), also returning the
minimum value found. -/
def argminIdxValOpt (f : α → R) (l : List α) : Option (ℕ × R) :=
  (l.foldl
    (fun (acc : Option (ℕ × R) × ℕ) x =>
      let (best, i) := acc
      match best with
      | none => (some (i, f x), i + 1)
      | some (_, b) => if f x < b then (some (i, f x), i + 1) else (best, i + 1))
    (none, 0)).1

/-- Dual with the maximum value found. -/
def argmaxIdxValOpt (f : α → R) (l : List α) : Option (ℕ × R) :=
  (l.foldl
    (fun (acc : Option (ℕ × R) × ℕ) x =>
      let (best, i) := acc
      match best with
      | none => (some (i, f x), i + 1)
      | some (_, b) => if f x > b then (some (i, f x), i + 1) else (best, i + 1))
    (none, 0)).1

/-- One hq step of `clampNearestAccess` (lines 1189-1216). -/
def clampNearestStep (ops : JsOps R) (placed hqs : List (LPt R)) (center : Pt R)
    (hq : LPt R) (ns : List (Pt R)) (s : ℕ) : List (Pt R) × ℕ :=
  let dists := sortAsc (ns.map fun n => len ops n hq.pos)
  let sum := (dists.take 2).foldl (· + ·) 0
  if sum ≤ 720 then (ns, s)
  else
    match argmaxIdxOpt (fun n => len ops n hq.pos) ns with
    | none => (ns, s)
    | some replaceIdx =>
      let (proposal, s') := tryPlaceNeutral ops 180
        (fun s =>
          let (qa, s1) := nextR (R := R) s
          let (radius, s2) := randomRange (R := R) 280 560 s1
          (polar ops hq.pos radius (qa * twoPi ops), s2))
        placed (ns.eraseIdx replaceIdx)
        (fun c => NEUTRAL_WEDGE_OFFSET_MIN ≤ minAngleOffsetToWedge ops c hqs center)
        s
      match proposal with
      | some p => (ns.set replaceIdx p, s')
      | none => (ns, s')

/-- `clampNearestAccess()` (lines 1187-1219): two passes over the hqs. -/
def clampNearestAccessStage (ops : JsOps R) (placed hqs : List (LPt R)) (center : Pt R)
    (ns : List (Pt R)) (s : ℕ) : List (Pt R) × ℕ :=
  (List.range 2).foldl
    (fun acc _ =>
      hqs.foldl (fun acc hq => clampNearestStep ops placed hqs center hq acc.1 acc.2) acc)
    (ns, s)

/-- The "personal neutral" pass (lines 1222-1251). -/
def personalNeutralStage (ops : JsOps R) (placed hqs : List (LPt R)) (center : Pt R)
    (ns : List (Pt R)) (s : ℕ) : List (Pt R) × ℕ :=
  hqs.foldl
    (fun (acc : List (Pt R) × ℕ) hq =>
      let (ns, s) := acc
      let nearest := argminIdxValOpt (fun n => len ops n hq.pos) ns
      -- `nearest.best <= 520` is false for the `Infinity` of an empty array
      if (match nearest with
          | some (_, b) => decide (b ≤ 520)
          | none => false) then (ns, s)
      else
        match argmaxIdxOpt (fun n => len ops n hq.pos) ns with
        | none => (ns, s)
        | some replaceIdx =>
          let (proposal, s') := tryPlaceNeutral ops 200
            (fun s =>
              let (qa, s1) := nextR (R := R) s
              let (radius, s2) := randomRange (R := R) 340 520 s1
              (polar ops hq.pos radius (qa * twoPi ops), s2))
            placed (ns.eraseIdx replaceIdx)
            (fun c => NEUTRAL_WEDGE_OFFSET_MIN ≤ minAngleOffsetToWedge ops c hqs center)
            s
          match proposal with
          | some p => (ns.set replaceIdx p, s')
          | none => (ns, s'))
    (ns, s)

/-- The four attempts of the hard nearest-sum clamp for one hq
(lines 1256-1278, `targetNearestSum = 700`). -/
def hardClampAttempts (ops : JsOps R) (placed hqs : List (LPt R)) (center : Pt R)
    (hq : LPt R) : ℕ → List (Pt R) → ℕ → List (Pt R) × ℕ
  | 0, ns, s => (ns, s)
  | n + 1, ns, s =>
    let ordered : List (ℕ × R) := stableSortBy (fun a b => a.2 ≤ b.2)
      (ns.enum.map fun p => (p.1, len ops p.2 hq.pos))
    let sum := ((ordered.take 2).map (·.2)).foldl (· + ·) 0
    if sum ≤ 700 then (ns, s)
    else
      match ordered.getLast? with
      | none => (ns, s)
      | some last =>
        let replaceIdx := last.1
        let (proposal, s') := tryPlaceNeutral ops 200
          (fun s =>
            let (qa, s1) := nextR (R := R) s
            let (radius, s2) := randomRange (R := R) 320 540 s1
            (polar ops hq.pos radius (qa * twoPi ops), s2))
          placed (ns.eraseIdx replaceIdx)
          (fun c => NEUTRAL_WEDGE_OFFSET_MIN ≤ minAngleOffsetToWedge ops c hqs center)
          s
        match proposal with
        | some p => hardClampAttempts ops placed hqs center hq n (ns.set replaceIdx p) s'
        | none => hardClampAttempts ops placed hqs center hq n ns s'

/-- The hard clamp over all hqs (lines 1254-1279). -/
def hardClampStage (ops : JsOps R) (placed hqs : List (LPt R)) (center : Pt R)
    (ns : List (Pt R)) (s : ℕ) : List (Pt R) × ℕ :=
  hqs.foldl (fun acc hq => hardClampAttempts ops placed hqs center hq 4 acc.1 acc.2) (ns, s)

/-- Count of neutrals within `CENTER_OCCUPANCY_RADIUS` of the center. -/
def centerCountOf (ops : JsOps R) (center : Pt R) (ns : List (Pt R)) : ℕ :=
  (ns.filter fun n => len ops n center ≤ CENTER_OCCUPANCY_RADIUS).length

/-- The center back-fill `while (count < min && centerFix++ < 30)` loop
(lines 1281-1303).  Note the source calls `placeCenterNeutral` (consuming
RNG draws) before testing `farthestIdx === -1`. -/
def centerFixStage (ops : JsOps R) (placed hqs : List (LPt R)) (center : Pt R) :
    ℕ → List (Pt R) → ℕ → List (Pt R) × ℕ
  | 0, ns, s => (ns, s)
  | n + 1, ns, s =>
    if ¬centerCountOf ops center ns < NEUTRAL_CENTER_MIN then (ns, s)
    else
      let farthestIdx := argmaxIdxOpt (fun n => len ops n center) ns
      let (replacement, s') := placeCenterNeutral ops center placed
        (match farthestIdx with
         | some i => ns.eraseIdx i
         | none => ns)
        hqs s
      match replacement, farthestIdx with
      | some p, some i => centerFixStage ops placed hqs center n (ns.set i p) s'
      | _, _ => (ns, s')

/-- The outward-relocation attempt loop of the center-cap pass
(lines 1322-1329): `radius` is drawn before `angle` here. -/
def centerHighAttempts (ops : JsOps R) (placed hqs : List (LPt R)) (center : Pt R)
    (others : List (Pt R)) : ℕ → ℕ → Option (Pt R) × ℕ
  | 0, s => (none, s)
  | t + 1, s =>
    let (radius, s1) := randomRange (CENTER_OCCUPANCY_RADIUS + 200) 1300 s
    let (qa, s2) := nextR (R := R) s1
    let candidate := polar ops center radius (qa * twoPi ops)
    if minAngleOffsetToWedge ops candidate hqs center < NEUTRAL_WEDGE_OFFSET_MIN then
      centerHighAttempts ops placed hqs center others t s2
    else if !canPlaceNeutral ops candidate placed others then
      centerHighAttempts ops placed hqs center others t s2
    else (some ⟨candidate.x, candidate.y⟩, s2)

/-- The center-cap `while (count > max && centerHigh++ < 80)` loop
(lines 1305-1332). -/
def centerHighStage (ops : JsOps R) (placed hqs : List (LPt R)) (center : Pt R) :
    ℕ → List (Pt R) → ℕ → List (Pt R) × ℕ
  | 0, ns, s => (ns, s)
  | n + 1, ns, s =>
    if ¬NEUTRAL_CENTER_MAX < centerCountOf ops center ns then (ns, s)
    else
      match argminIdxValOpt (fun n => len ops n center) ns with
      | none => (ns, s)
      | some (nearestIdx, _) =>
        let (replacement, s') := centerHighAttempts ops placed hqs center
          (ns.eraseIdx nearestIdx) 220 s
        match replacement with
        | some p => centerHighStage ops placed hqs center n (ns.set nearestIdx p) s'
        | none => (ns, s')

/-- The forced relocation attempt loop (lines 1345-1354): `canPlaceNeutral`
is tested before the bounds check here. -/
def forceRelocateAttempts (ops : JsOps R) (placed : List (LPt R)) (center : Pt R)
    (others : List (Pt R)) : ℕ → ℕ → Option (Pt R) × ℕ
  | 0, s => (none, s)
  | t + 1, s =>
    let (radius, s1) := randomRange (CENTER_OCCUPANCY_RADIUS + 200) 1400 s
    let (qa, s2) := nextR (R := R) s1
    let candidate := polar ops center radius (qa * twoPi ops)
    if !canPlaceNeutral ops candidate placed others then
      forceRelocateAttempts ops placed center others t s2
    else if candidate.x < 0 || MAP_WIDTH < candidate.x || candidate.y < 0 ||
        MAP_HEIGHT < candidate.y then
      forceRelocateAttempts ops placed center others t s2
    else (some ⟨candidate.x, candidate.y⟩, s2)

/-- The "final safety" relocation loop
`while (count > max && forceIdx++ < neutralPlacements.length)`
(lines 1334-1356); it targets the first center neutral (`findIndex`). -/
def forceRelocateStage (ops : JsOps R) (placed : List (LPt R)) (center : Pt R) :
    ℕ → List (Pt R) → ℕ → List (Pt R) × ℕ
  | 0, ns, s => (ns, s)
  | n + 1, ns, s =>
    if ¬NEUTRAL_CENTER_MAX < centerCountOf ops center ns then (ns, s)
    else
      match ns.findIdx? (fun nn => len ops nn center ≤ CENTER_OCCUPANCY_RADIUS) with
      | none => (ns, s)
      | some idx =>
        let (moved, s') := forceRelocateAttempts ops placed center (ns.eraseIdx idx) 400 s
        match moved with
        | some p => forceRelocateStage ops placed center n (ns.set idx p) s'
        | none => (ns, s')

/-- The last-resort evacuation attempt loop (lines 1376-1385). -/
def evacAttempts (ops : JsOps R) (placed : List (LPt R)) (center : Pt R)
    (others : List (Pt R)) : ℕ → ℕ → Option (Pt R) × ℕ
  | 0, s => (none, s)
  | t + 1, s =>
    let (radius, s1) := randomRange (CENTER_OCCUPANCY_RADIUS + 300) 1400 s
    let (qa, s2) := nextR (R := R) s1
    let candidate := polar ops center radius (qa * twoPi ops)
    if !canPlaceNeutral ops candidate placed others then
      evacAttempts ops placed center others t s2
    else if candidate.x < 0 || MAP_WIDTH < candidate.x || candidate.y < 0 ||
        MAP_HEIGHT < candidate.y then
      evacAttempts ops placed center others t s2
    else (some ⟨candidate.x, candidate.y⟩, s2)

/-- The last-resort evacuation `while (count > max && evacGuard++ < 300)`
loop (lines 1358-1387); it targets the center neutral closest to the map
center. -/
def evacStage (ops : JsOps R) (placed : List (LPt R)) (center : Pt R) :
    ℕ → List (Pt R) → ℕ → List (Pt R) × ℕ
  | 0, ns, s => (ns, s)
  | n + 1, ns, s =>
    if ¬NEUTRAL_CENTER_MAX < centerCountOf ops center ns then (ns, s)
    else
      match argminIdxValOpt (fun n => len ops n center) ns with
      | none => (ns, s)
      | some (idx, _) =>
        let (placedOut, s') := evacAttempts ops placed center (ns.eraseIdx idx) 500 s
        match placedOut with
        | some p => evacStage ops placed center n (ns.set idx p) s'
        | none => (ns, s')

/-- `NEUTRAL_TYPE_POOL` — five foundries and five reactors. -/
def NEUTRAL_TYPE_POOL : List SType :=
  [SType.foundry, SType.foundry, SType.foundry, SType.foundry, SType.foundry,
   SType.reactor, SType.reactor, SType.reactor, SType.reactor, SType.reactor]

/-- Typing of the final neutral slots (lines 1389-1399): the first
`NEUTRAL_COUNT` placements become labeled points `neutral-i`; the slot's own
optional `type` is never assigned anywhere in the source, so the type always
comes from the shuffled pool at `idx % neutralTypes.length`. -/
def labelNeutrals (ns : List (Pt R)) (s : ℕ) : List (LPt R) × ℕ :=
  let (neutralTypes, s') := shuffle NEUTRAL_TYPE_POOL s
  (((ns.take NEUTRAL_COUNT).enum).map fun p =>
    ⟨p.2.x, p.2.y, "neutral-" ++ toString p.1,
     neutralTypes.getD (p.1 % neutralTypes.length) SType.foundry, none⟩, s')

/-- Normalization (lines 1401-1431): translate to center coordinates, fit the
largest extent inside the margined half-map, rescale, translate back.
(`extents.maxAbsX ? halfWidth / extents.maxAbsX : 1` — the zero extent is
JS-falsy.) -/
def normalizeStage (pts : List (LPt R)) : List (LPt R) :=
  let center := mapCenter (R := R)
  let rel := pts.map fun p => ((p.x - center.x, p.y - center.y), p)
  let maxAbsX := rel.foldl (fun acc p => max acc |p.1.1|) 0
  let maxAbsY := rel.foldl (fun acc p => max acc |p.1.2|) 0
  let targetMargin := min MAP_WIDTH MAP_HEIGHT * 0.02
  let halfWidth := MAP_WIDTH / 2 - targetMargin
  let halfHeight := MAP_HEIGHT / 2 - targetMargin
  let scale := min 1 (min (if maxAbsX = 0 then 1 else halfWidth / maxAbsX)
    (if maxAbsY = 0 then 1 else halfHeight / maxAbsY))
  rel.map fun p => p.2.setPos ⟨p.1.1 * scale + center.x, p.1.2 * scale + center.y⟩

/-! ### Post-normalization repair (lines 1433-1600)

After normalization the source takes views of the single `allPoints` array:
`normalizedNeutrals = filter(!ownerId)`, `normalizedPlayerStructures =
filter(ownerId)`, `normalizedHqs = filter(ownerId && type === 'hq')`, and all
mutation happens through the shared objects.  We keep `allPoints` as the one
piece of state, take the same filter views, and express a write to
`normalizedNeutrals[i]` as an update of the `i`-th ownerless element. -/

/-- `normalizedNeutrals`. -/
def neutralsOf (l : List (LPt R)) : List (LPt R) := l.filter fun p => p.ownerId.isNone

/-- `normalizedPlayerStructures`. -/
def playerStructsOf (l : List (LPt R)) : List (LPt R) := l.filter fun p => p.ownerId.isSome

/-- `normalizedHqs`. -/
def hqViewOf (l : List (LPt R)) : List (LPt R) :=
  l.filter fun p => p.ownerId.isSome && p.type == SType.hq

/-- Write position `q` into the `i`-th ownerless element of `l`
(`normalizedNeutrals[i].x = q.x; …y = q.y` through the shared reference). -/
def setNeutral : List (LPt R) → ℕ → Pt R → List (LPt R)
  | [], _, _ => []
  | a :: t, i, q =>
    if a.ownerId.isNone then
      if i = 0 then a.setPos q :: t else a :: setNeutral t (i - 1) q
    else a :: setNeutral t i q

/-- Remove the `i`-th ownerless element of `l`
(`normalizedStructures.filter(p => p !== normalizedNeutrals[i])`). -/
def removeNeutralAt : List (LPt R) → ℕ → List (LPt R)
  | [], _ => []
  | a :: t, i =>
    if a.ownerId.isNone then
      if i = 0 then t else a :: removeNeutralAt t (i - 1)
    else a :: removeNeutralAt t i

/-- Copy a list of positions back into the ownerless elements in order
(`neutralPositions.forEach((pos, idx) => { normalizedNeutrals[idx].x = pos.x; … })`). -/
def patchNeutralPositions : List (LPt R) → List (Pt R) → List (LPt R)
  | [], _ => []
  | l, [] => l
  | a :: t, q :: qs =>
    if a.ownerId.isNone then a.setPos q :: patchNeutralPositions t qs
    else a :: patchNeutralPositions t (q :: qs)

/-- The `rebalanceNeutrals` invocation and write-back (lines 1433-1457),
with the option literal of the call site. -/
def rebalanceCallStage (ops : JsOps R) (pts : List (LPt R)) (s : ℕ) :
    List (LPt R) × ℕ :=
  let r := rebalanceNeutrals ops ((hqViewOf pts).map (·.pos))
    ((neutralsOf pts).map (·.pos)) ((playerStructsOf pts).map (·.pos))
    ⟨320, 300, CENTER_OCCUPANCY_RADIUS, (NEUTRAL_CENTER_MAX : ℤ), 150, 1600, 800⟩ s
  (patchNeutralPositions pts r.2.1, r.2.2.2)

/-- The whole-array clamp
`p.x = Math.max(0, Math.min(MAP_WIDTH, p.x)); p.y = …` (lines 1459-1463;
the identical `clamp` call at lines 1564-1567). -/
def clampAllStage (pts : List (LPt R)) : List (LPt R) :=
  pts.map fun p => p.setPos ⟨clamp p.x 0 MAP_WIDTH, clamp p.y 0 MAP_HEIGHT⟩

/-- The relocation attempts of the post-rebalance center-cap pass
(lines 1482-1499): all checks form one conjunction. -/
def centerEvacAttempts (ops : JsOps R) (others : List (LPt R)) (center : Pt R) :
    ℕ → ℕ → Option (Pt R) × ℕ
  | 0, s => (none, s)
  | t + 1, s =>
    let (radius, s1) := randomRange (CENTER_OCCUPANCY_RADIUS + 240) 1400 s
    let (qa, s2) := nextR (R := R) s1
    let candidate := polar ops center radius (qa * twoPi ops)
    if (others.all fun p => NEUTRAL_MIN_SEPARATION ≤ len ops p.pos candidate) &&
        len ops candidate center ≤ 1600 &&
        0 ≤ candidate.x && candidate.x ≤ MAP_WIDTH &&
        0 ≤ candidate.y && candidate.y ≤ MAP_HEIGHT then
      (some candidate, s2)
    else centerEvacAttempts ops others center t s2

/-- The post-rebalance center-cap loop
`while (centerCount() > maxCenter && centerEvac++ < 300)` (lines 1465-1501). -/
def centerEvacStage (ops : JsOps R) : ℕ → List (LPt R) → ℕ → List (LPt R) × ℕ
  | 0, pts, s => (pts, s)
  | n + 1, pts, s =>
    let center := mapCenter (R := R)
    if ¬NEUTRAL_CENTER_MAX < centerCountOf ops center ((neutralsOf pts).map (·.pos)) then
      (pts, s)
    else
      match argminIdxValOpt (fun p => len ops p.pos center) (neutralsOf pts) with
      | none => (pts, s)
      | some (idx, _) =>
        let (moved, s') := centerEvacAttempts ops (removeNeutralAt pts idx) center 300 s
        match moved with
        | some q => centerEvacStage ops n (setNeutral pts idx q) s'
        | none => (pts, s')

/-- `nearestSums()` of the final spread fix: per normalized hq, sum of the two
smallest neutral distances. -/
def nearestSumsOf (ops : JsOps R) (pts : List (LPt R)) : List R :=
  (hqViewOf pts).map (nearestTwoSum ops ((neutralsOf pts).map (·.pos)))

/-- The candidate record of the final spread fix (`bestMove`). -/
structure SpreadMove (R : Type) where
  pos : Pt R
  spread : R
  sums : List R
  idx : ℕ

/-- `consider(candidate, moveIdx)` of the final spread fix
(lines 1533-1549). -/
def spreadFixConsider (ops : JsOps R) (pts : List (LPt R)) (candidate : Pt R)
    (moveIdx : ℕ) (best : Option (SpreadMove R)) : Option (SpreadMove R) :=
  if candidate.x < 0 || MAP_WIDTH < candidate.x || candidate.y < 0 ||
      MAP_HEIGHT < candidate.y then best
  else if (playerStructsOf pts).any (fun p => len ops p.pos candidate < 140) then best
  else
    let neus := (neutralsOf pts).map (·.pos)
    if (List.range neus.length).any (fun i =>
        i ≠ moveIdx && len ops ((neus.get? i).getD ⟨0, 0⟩) candidate < 140) then best
    else
      let moved := neus.set moveIdx candidate
      let nextSums := (hqViewOf pts).map (nearestTwoSum ops moved)
      let spread := listMax nextSums - listMin nextSums
      match best with
      | none => some ⟨candidate, spread, nextSums, moveIdx⟩
      | some bm => if spread < bm.spread then some ⟨candidate, spread, nextSums, moveIdx⟩ else best

/-- One pass of the final spread-fix candidate grid: all `moveIdx`, the seven
angle offsets and the four radii, in source nesting order (lines 1551-1557). -/
def spreadFixBest (ops : JsOps R) (pts : List (LPt R)) (targetHQ : LPt R)
    (baseAngle : R) : Option (SpreadMove R) :=
  let angles : List R :=
    [-(ops.pi / 2), -(ops.pi / 3), -(ops.pi / 6), 0, ops.pi / 6, ops.pi / 3, ops.pi / 2]
  let radii : List R := [200, 320, 440, 560]
  (List.range ((neutralsOf pts).length)).foldl
    (fun best moveIdx =>
      angles.foldl
        (fun best offset =>
          radii.foldl
            (fun best r =>
              spreadFixConsider ops pts (polar ops targetHQ.pos r (baseAngle + offset))
                moveIdx best)
            best)
        best)
    none

/-- The `while (max - min > 350 && guard++ < 25)` loop of the final spread
fix (lines 1525-1563). -/
def spreadFixLoop (ops : JsOps R) : ℕ → List (LPt R) → List R → List (LPt R)
  | 0, pts, _ => pts
  | g + 1, pts, sums =>
    if ¬350 < listMax sums - listMin sums then pts
    else
      let worstIdx := sums.indexOf (listMax sums)
      let targetHQ := ((hqViewOf pts).get? worstIdx).getD (dummyLPt (R := R))
      let center := mapCenter (R := R)
      let baseAngle := ops.atan2 (center.y - targetHQ.y) (center.x - targetHQ.x)
      match spreadFixBest ops pts targetHQ baseAngle with
      | none => pts
      | some bm =>
        if ¬bm.spread < listMax sums - listMin sums then pts
        else spreadFixLoop ops g (setNeutral pts bm.idx bm.pos) bm.sums

/-- The final spread fix (lines 1502-1569): run the loop only when the spread
exceeds 350, then clamp every structure (the clamp sits inside the `if`). -/
def spreadFixStage (ops : JsOps R) (pts : List (LPt R)) : List (LPt R) :=
  let sums := nearestSumsOf ops pts
  let finalSpread := listMax sums - listMin sums
  if ¬350 < finalSpread then pts
  else clampAllStage (spreadFixLoop ops 25 pts (nearestSumsOf ops pts))

/-- The placement attempts of the final center floor (lines 1587-1598). -/
def centerShortAttempts (ops : JsOps R) (pts : List (LPt R)) (idx : ℕ) (center : Pt R) :
    ℕ → ℕ → Option (Pt R) × ℕ
  | 0, s => (none, s)
  | t + 1, s =>
    let (radius, s1) := randomRange (R := R) 220 420 s
    let (qa, s2) := nextR (R := R) s1
    let candidate := polar ops center radius (qa * twoPi ops)
    if candidate.x < 0 || MAP_WIDTH < candidate.x || candidate.y < 0 ||
        MAP_HEIGHT < candidate.y then
      centerShortAttempts ops pts idx center t s2
    else if (playerStructsOf pts).any (fun p => len ops p.pos candidate < 140) then
      centerShortAttempts ops pts idx center t s2
    else if ((neutralsOf pts).enum).any (fun p =>
        p.1 ≠ idx && len ops p.2.pos candidate < 140) then
      centerShortAttempts ops pts idx center t s2
    else (some candidate, s2)

/-- The final center floor `while (count < min && centerShortGuard++ < 60)`
(lines 1571-1600). -/
def centerShortStage (ops : JsOps R) : ℕ → List (LPt R) → ℕ → List (LPt R) × ℕ
  | 0, pts, s => (pts, s)
  | n + 1, pts, s =>
    let center := mapCenter (R := R)
    if ¬centerCountOf ops center ((neutralsOf pts).map (·.pos)) < NEUTRAL_CENTER_MIN then
      (pts, s)
    else
      match argmaxIdxOpt (fun p => len ops p.pos center) (neutralsOf pts) with
      | none => (pts, s)
      | some idx =>
        let (plc, s') := centerShortAttempts ops pts idx center 180 s
        match plc with
        | some q => centerShortStage ops n (setNeutral pts idx q) s'
        | none => (pts, s')

/-! ### Assembly (lines 1602-1670) -/

/-- `nextLabel()` at counter value `k` (the shuffled pool always has at least
one name, so the `OP-` branch is dead but kept). -/
def nextLabelF (names : List String) (k : ℕ) : String :=
  (if names.length ≠ 0 then names.getD (k % names.length) ""
   else "OP-" ++ toString k).toUpper

/-- Owned drone capacity
`p.type === 'foundry' ? 100 : p.type === 'reactor' ? 150 : 200`. -/
def ownedCapacity : SType → R
  | SType.foundry => 100
  | SType.reactor => 150
  | SType.hq => 200

/-- `droneGenerationRate: p.type === 'foundry' ? 3 : undefined`. -/
def generationRate : SType → Option R
  | SType.foundry => some 3
  | _ => none

/-- The owned pass of the emission:
`parseInt(p.ownerId.slice(1)) - 1` reads the player number from `p⟨n⟩`. -/
def emitOwnedStep (players : List Player) (names : List String)
    (acc : List (Structure R) × ℕ) (p : LPt R) : List (Structure R) × ℕ :=
  match p.ownerId with
  | some oid =>
    (acc.1 ++ [⟨p.id, p.type, p.x, p.y, some oid, nextLabelF names acc.2,
      (players.getD ((oid.drop 1).toNat?.getD 0 - 1) ⟨"", "", ""⟩).color,
      sizeByType p.type, some 40, some (ownedCapacity p.type), generationRate p.type⟩],
     acc.2 + 1)
  | none => acc

/-- The neutral pass of the emission (`if (p.ownerId) return` in the second
`forEach`). -/
def emitNeutralStep (names : List String)
    (acc : List (Structure R) × ℕ) (p : LPt R) : List (Structure R) × ℕ :=
  match p.ownerId with
  | some _ => acc
  | none =>
    (acc.1 ++ [⟨p.id, p.type, p.x, p.y, none, nextLabelF names acc.2,
      NEUTRAL_COLORS.getD (acc.1.length % NEUTRAL_COLORS.length) "",
      sizeByType p.type, some 0,
      some (if p.type == SType.foundry then (100 : R) else 150), generationRate p.type⟩],
     acc.2 + 1)

/-- Structure emission (lines 1602-1649): one pass over `allPoints` emitting
the owned structures, a second pass emitting the neutral ones; the label
counter runs through both passes, and each neutral's color is indexed by the
length of the `structures` array at push time. -/
def emitStage (players : List Player) (pts : List (LPt R)) (outpostNames : List String)
    (s : ℕ) : List (Structure R) × ℕ :=
  ((pts.foldl
      (emitNeutralStep
        (shuffle (if outpostNames.length ≠ 0 then outpostNames else ["Alpha"]) s).1)
      (pts.foldl
        (emitOwnedStep players
          (shuffle (if outpostNames.length ≠ 0 then outpostNames else ["Alpha"]) s).1)
        ([], 0))).1,
   (shuffle (if outpostNames.length ≠ 0 then outpostNames else ["Alpha"]) s).2)

/-- The once-drawn rotation draw (`rng() * Math.PI * 2`'s draw). -/
def gQ0 (ops : JsOps R) (seed : ℕ) : R × ℕ := nextR (R := R) seed

/-- The five anchor hqs of the attempt. -/
def gHqs (ops : JsOps R) (seed : ℕ) : List (LPt R) :=
  buildHqs ops ((gQ0 ops seed).1 * twoPi ops)

/-- State after the satellite stage: the hqs with each player's cluster. -/
def gPlaced (ops : JsOps R) (seed : ℕ) : List (LPt R) × ℕ :=
  satStage ops mkPlayers (gHqs ops seed) NUM_PLAYERS (gHqs ops seed) (gQ0 ops seed).2

/-- Neutrals after the small center cluster. -/
def gNs1 (ops : JsOps R) (seed : ℕ) : List (Pt R) × ℕ :=
  centerClusterStage ops (gPlaced ops seed).1 (gHqs ops seed) (mapCenter (R := R))
    NEUTRAL_CENTER_MIN [] (gPlaced ops seed).2

/-- The shuffled hq order used to pick backfield owners. -/
def gShuf (ops : JsOps R) (seed : ℕ) : List (LPt R) × ℕ :=
  shuffle (gHqs ops seed) (gNs1 ops seed).2

/-- Neutrals after the backfield stage. -/
def gNs2 (ops : JsOps R) (seed : ℕ) : List (Pt R) × ℕ :=
  backfieldStage ops (gPlaced ops seed).1 (gHqs ops seed) (mapCenter (R := R))
    ((gShuf ops seed).1.take BACKFIELD_COUNT) (gNs1 ops seed).1 (gShuf ops seed).2

/-- Neutrals after the mid fill to `NEUTRAL_COUNT`. -/
def gNs3 (ops : JsOps R) (seed : ℕ) : List (Pt R) × ℕ :=
  midFillStage ops (gPlaced ops seed).1 (gHqs ops seed) (mapCenter (R := R))
    NEUTRAL_COUNT (gNs2 ops seed).1 (gNs2 ops seed).2

/-- Neutrals after the 400-iteration improvement loop. -/
def gNs4 (ops : JsOps R) (seed : ℕ) : List (Pt R) × ℕ :=
  improveNeutrals ops (gNs3 ops seed).1 (gPlaced ops seed).1 (gHqs ops seed)
    (mapCenter (R := R)) (gNs3 ops seed).2

/-- Neutrals after reach balancing. -/
def gNs5 (ops : JsOps R) (seed : ℕ) : List (Pt R) × ℕ :=
  balanceNeutralReach ops (gNs4 ops seed).1 (gPlaced ops seed).1 (gHqs ops seed)
    (mapCenter (R := R)) (gNs4 ops seed).2

/-- Neutrals after the relaxed top-up. -/
def gNs6 (ops : JsOps R) (seed : ℕ) : List (Pt R) × ℕ :=
  relaxedTopUpStage ops (gPlaced ops seed).1 (gHqs ops seed) (mapCenter (R := R)) 600
    (gNs5 ops seed).1 (gNs5 ops seed).2

/-- Neutrals after the nearest-access clamp. -/
def gNs7 (ops : JsOps R) (seed : ℕ) : List (Pt R) × ℕ :=
  clampNearestAccessStage ops (gPlaced ops seed).1 (gHqs ops seed) (mapCenter (R := R))
    (gNs6 ops seed).1 (gNs6 ops seed).2

/-- Neutrals after the personal-neutral stage. -/
def gNs8 (ops : JsOps R) (seed : ℕ) : List (Pt R) × ℕ :=
  personalNeutralStage ops (gPlaced ops seed).1 (gHqs ops seed) (mapCenter (R := R))
    (gNs7 ops seed).1 (gNs7 ops seed).2

/-- Neutrals after the hard clamp. -/
def gNs9 (ops : JsOps R) (seed : ℕ) : List (Pt R) × ℕ :=
  hardClampStage ops (gPlaced ops seed).1 (gHqs ops seed) (mapCenter (R := R))
    (gNs8 ops seed).1 (gNs8 ops seed).2

/-- Neutrals after the center floor fix. -/
def gNs10 (ops : JsOps R) (seed : ℕ) : List (Pt R) × ℕ :=
  centerFixStage ops (gPlaced ops seed).1 (gHqs ops seed) (mapCenter (R := R)) 30
    (gNs9 ops seed).1 (gNs9 ops seed).2

/-- Neutrals after the center ceiling fix. -/
def gNs11 (ops : JsOps R) (seed : ℕ) : List (Pt R) × ℕ :=
  centerHighStage ops (gPlaced ops seed).1 (gHqs ops seed) (mapCenter (R := R)) 80
    (gNs10 ops seed).1 (gNs10 ops seed).2

/-- Neutrals after the forced-relocation pass. -/
def gNs12 (ops : JsOps R) (seed : ℕ) : List (Pt R) × ℕ :=
  forceRelocateStage ops (gPlaced ops seed).1 (mapCenter (R := R))
    (gNs11 ops seed).1.length (gNs11 ops seed).1 (gNs11 ops seed).2

/-- Neutrals after the center evacuation pass. -/
def gNs13 (ops : JsOps R) (seed : ℕ) : List (Pt R) × ℕ :=
  evacStage ops (gPlaced ops seed).1 (mapCenter (R := R)) 300
    (gNs12 ops seed).1 (gNs12 ops seed).2

/-- The typed, labeled neutral points. -/
def gLabeled (ops : JsOps R) (seed : ℕ) : List (LPt R) × ℕ :=
  labelNeutrals (gNs13 ops seed).1 (gNs13 ops seed).2

/-- All points after normalization. -/
def gA1 (ops : JsOps R) (seed : ℕ) : List (LPt R) :=
  normalizeStage ((gPlaced ops seed).1 ++ (gLabeled ops seed).1)

/-- All points after the rebalancer call. -/
def gA2 (ops : JsOps R) (seed : ℕ) : List (LPt R) × ℕ :=
  rebalanceCallStage ops (gA1 ops seed) (gLabeled ops seed).2

/-- All points after the whole-array clamp. -/
def gA3 (ops : JsOps R) (seed : ℕ) : List (LPt R) :=
  clampAllStage (gA2 ops seed).1

/-- All points after the post-rebalance center-cap pass. -/
def gA4 (ops : JsOps R) (seed : ℕ) : List (LPt R) × ℕ :=
  centerEvacStage ops 300 (gA3 ops seed) (gA2 ops seed).2

/-- All points after the final spread fix. -/
def gA5 (ops : JsOps R) (seed : ℕ) : List (LPt R) :=
  spreadFixStage ops (gA4 ops seed).1

/-- All points after the final center floor. -/
def gA6 (ops : JsOps R) (seed : ℕ) : List (LPt R) × ℕ :=
  centerShortStage ops 60 (gA5 ops seed) (gA4 ops seed).2

/-- The emitted structures of the attempt. -/
def gStructures (ops : JsOps R) (outpostNames : List String) (seed : ℕ) :
    List (Structure R) :=
  (emitStage mkPlayers (gA6 ops seed).1 outpostNames (gA6 ops seed).2).1

/-- One full generation attempt for a resolved seed: the stage pipeline of
`generateStartingScenario` (each stage above, in source order), returning the
assembled scenario and whether the final count check (20 owned, 10 neutral)
passed. -/
def genAttempt (ops : JsOps R) (outpostNames : List String) (seed : ℕ) :
    Scenario R × Bool :=
  (⟨mkPlayers, gStructures ops outpostNames seed, 0⟩,
   decide (((gStructures ops outpostNames seed).filter
       fun st => st.ownerId.isSome).length = 20) &&
     decide (((gStructures ops outpostNames seed).filter
       fun st => st.ownerId.isNone).length = 10))

/-- Every labeled point lies inside the map rectangle. -/
def InBoundsL (l : List (LPt R)) : Prop :=
  ∀ p ∈ l, 0 ≤ p.x ∧ p.x ≤ MAP_WIDTH ∧ 0 ≤ p.y ∧ p.y ≤ MAP_HEIGHT

/-- Seed resolution (lines 1008-1011): a supplied finite numeric seed is
normalized with `Math.max(1, Math.floor(Math.abs(seed)))`; otherwise one is
drawn as `Math.floor(Math.random() * 1e9) || 1` from the ambient entropy. -/
def resolveSeed (options : Option ℚ) (entropy : ℚ) : ℕ :=
  match options with
  | some q => max 1 (Int.toNat ⌊|q|⌋)
  | none =>
    let v := Int.toNat ⌊entropy * 1000000000⌋
    if v = 0 then 1 else v

/-- The retry recursion of `generateStartingScenario`: on a failed count
check the source restarts itself with `seed + 1`, with no retry ceiling; the
embedding makes the recursion depth explicit as `fuel` (`none` = the source
would still be retrying after `fuel` attempts). -/
def genSeeded (ops : JsOps R) (outpostNames : List String) :
    ℕ → ℕ → Option (Scenario R)
  | 0, _ => none
  | fuel + 1, seed =>
    if (genAttempt ops outpostNames seed).2 then some (genAttempt ops outpostNames seed).1
    else genSeeded ops outpostNames fuel (seed + 1)

/-- `generateStartingScenario(options)`.  `options` is the optional finite
numeric seed; `entropy` stands for the `Math.random()` draw consumed only
when no finite seed is supplied. -/
def generateStartingScenario (ops : JsOps R) (outpostNames : List String) (fuel : ℕ)
    (options : Option ℚ) (entropy : ℚ) : Option (Scenario R) :=
  genSeeded ops outpostNames fuel (resolveSeed options entropy)

/-! ### JS numbers with infinities (for the metrics/report layer)

Several fairness statistics can be `±Infinity` (sentinel initializations,
`Math.min()`/`Math.max()` of empty spreads, `?? Infinity` fallbacks) or `NaN`
(`Infinity - Infinity`, aggregation over an `undefined` field).  `JsNum`
carries those values exactly; finite arithmetic stays in `R`. -/

inductive JsNum (R : Type) where
  | num (r : R)
  | posInf
  | negInf
  | nan
deriving DecidableEq, Repr

namespace JsNum

/-- `Number.isFinite`. -/
def isFinite : JsNum R → Bool
  | num _ => true
  | _ => false

/-- JS subtraction. -/
def sub : JsNum R → JsNum R → JsNum R
  | num a, num b => num (a - b)
  | num _, posInf => negInf
  | num _, negInf => posInf
  | posInf, num _ => posInf
  | negInf, num _ => negInf
  | posInf, negInf => posInf
  | negInf, posInf => negInf
  | posInf, posInf => nan
  | negInf, negInf => nan
  | nan, _ => nan
  | _, nan => nan

/-- Binary `Math.max` (NaN-absorbing). -/
def jmax : JsNum R → JsNum R → JsNum R
  | nan, _ => nan
  | _, nan => nan
  | posInf, _ => posInf
  | _, posInf => posInf
  | negInf, b => b
  | a, negInf => a
  | num a, num b => num (max a b)

/-- Binary `Math.min` (NaN-absorbing). -/
def jmin : JsNum R → JsNum R → JsNum R
  | nan, _ => nan
  | _, nan => nan
  | negInf, _ => negInf
  | _, negInf => negInf
  | posInf, b => b
  | a, posInf => a
  | num a, num b => num (min a b)

/-- `Math.max(...l)` (`-Infinity` on the empty spread). -/
def jmaxL (l : List (JsNum R)) : JsNum R := l.foldl jmax negInf

/-- `Math.min(...l)` (`Infinity` on the empty spread). -/
def jminL (l : List (JsNum R)) : JsNum R := l.foldl jmin posInf

/-- JS `<` (false whenever NaN is involved). -/
def jlt : JsNum R → JsNum R → Bool
  | nan, _ => false
  | _, nan => false
  | num a, num b => decide (a < b)
  | num _, posInf => true
  | num _, negInf => false
  | posInf, _ => false
  | negInf, num _ => true
  | negInf, posInf => true
  | negInf, negInf => false

end JsNum

/-- The `l.length ? Math.max(...v) - Math.min(...v) : 0` pattern. -/
def jsRangeGuard (l : List (JsNum R)) : JsNum R :=
  if l.length = 0 then JsNum.num 0 else (JsNum.jmaxL l).sub (JsNum.jminL l)

/-! ### Fog-of-war visibility oracle
(`fogOfWar/visibility.ts`, `adapters.ts`, `config.ts`) -/

/-- `SONAR_RADIUS` / `DEFAULT_FOG_OF_WAR_CONFIG.baseSonarRadius`. -/
def SONAR_RADIUS : R := 360

/-- A `SpecialistInstance` (only the field the sonar math reads). -/
structure Specialist (R : Type) where
  sonarRadiusMultiplier : Option R
deriving DecidableEq, Repr

/-- `CanonicalOutpost` (the fields the visibility math reads). -/
structure CanonicalOutpost (R : Type) where
  id : String
  position : Pt R
  ownerId : Option String
  droneCount : R
  sonarRadiusMultiplier : Option R
  specialists : List (Specialist R)
deriving DecidableEq, Repr

/-- `distance(x1, y1, x2, y2)` from `utils/math`.  Modelled from the spec:
the source of `utils/math.ts` is not part of the snapshot (only call sites);
per the spec's glossary, clearance and the other metrics use the Euclidean
center-to-center distance, i.e. `Math.hypot` of the coordinate differences
(exactly the `length`/`dist` helpers the sibling modules define). -/
def distance (ops : JsOps R) (x1 y1 x2 y2 : R) : R := ops.hypot (x1 - x2) (y1 - y2)

/-- `structureToCanonicalOutpost` (`fogOfWar/adapters.ts`). -/
def structureToCanonicalOutpost (st : Structure R) : CanonicalOutpost R :=
  ⟨st.id, ⟨st.x, st.y⟩, st.ownerId, st.droneCount.getD 0, none, []⟩

/-- `structuresToOutposts`. -/
def structuresToOutposts (sts : List (Structure R)) : List (CanonicalOutpost R) :=
  sts.map structureToCanonicalOutpost

/-- `getOutpostSonarRadius(outpost, config)`. -/
def getOutpostSonarRadius (o : CanonicalOutpost R) : R :=
  SONAR_RADIUS * o.sonarRadiusMultiplier.getD 1 *
    o.specialists.foldl (fun acc sp => acc * sp.sonarRadiusMultiplier.getD 1) 1

/-- A `SonarSource`. -/
structure SonarSource (R : Type) where
  outpostId : String
  x : R
  y : R
  radius : R
deriving DecidableEq, Repr

/-- `getPlayerSonarSources(outposts, playerId, config)`. -/
def getPlayerSonarSources (os : List (CanonicalOutpost R)) (playerId : String) :
    List (SonarSource R) :=
  (os.filter fun o => o.ownerId = some playerId).map fun o =>
    ⟨o.id, o.position.x, o.position.y, getOutpostSonarRadius o⟩

/-- `isPositionInSonar(pos, sources)`. -/
def isPositionInSonar (ops : JsOps R) (pos : Pt R) (sources : List (SonarSource R)) : Bool :=
  sources.any fun src => distance ops pos.x pos.y src.x src.y ≤ src.radius

/-- `isOutpostVisibleToPlayer({outpost, playerId, allOutposts, sonarSources,
config})` with the sources precomputed (as the metrics engine calls it). -/
def isOutpostVisibleToPlayer (ops : JsOps R) (o : CanonicalOutpost R) (playerId : String)
    (sources : List (SonarSource R)) : Bool :=
  o.ownerId = some playerId || isPositionInSonar ops o.position sources

/-! ### The fairness metrics engine (`fairnessMetrics.ts`) -/

def CONNECTIVITY_RADIUS : R := 1200

structure PlayerStructureSummary where
  playerId : String
  total : ℕ
  hq : ℕ
  foundry : ℕ
  reactor : ℕ
deriving DecidableEq, Repr

structure NeutralAccessSummary (R : Type) where
  playerId : String
  nearestTwoSum : JsNum R
  nearestDistances : List R
deriving DecidableEq, Repr

/-- `PlayerClusterStat`; in the no-hq branch the source object literal omits
`minSpacing`/`maxSpacing` (`undefined`, hence `none`). -/
structure PlayerClusterStat (R : Type) where
  playerId : String
  averageSpacing : R
  minSpacing : Option R
  maxSpacing : Option R
  minForeignGap : JsNum R
deriving DecidableEq, Repr

structure PlayerNeutralAccessCounts where
  playerId : String
  nearCount : ℕ
  midCount : ℕ
  farCount : ℕ
deriving DecidableEq, Repr

structure PlayerNeutralTypeCounts where
  playerId : String
  foundry : ℕ
  reactor : ℕ
deriving DecidableEq, Repr

/-- `avg(values)`. -/
def avgR (l : List R) : R := if l.length = 0 then 0 else l.foldl (· + ·) 0 / (l.length : R)

/-- Position of a structure. -/
def Structure.pos (st : Structure R) : Pt R := ⟨st.x, st.y⟩

/-- Dead-code default for in-range `getD` indexing of structure lists. -/
def dummyStructure : Structure R :=
  ⟨"", SType.hq, 0, 0, none, "", "", 0, none, none, none⟩

/-- `l.length ? Math.max(...l) - Math.min(...l) : 0` over plain numbers. -/
def rangeGuardR (l : List R) : R := if l.length = 0 then 0 else listMax l - listMin l

/-- Same over counts (`Math.max ≥ Math.min`, so the JS subtraction is the
truncated one). -/
def rangeGuardN (l : List ℕ) : ℕ :=
  match l with
  | [] => 0
  | h :: t => t.foldl max h - t.foldl min h

/-- `undefined` folded into a JS arithmetic context becomes `NaN`. -/
def optToJs : Option R → JsNum R
  | some r => JsNum.num r
  | none => JsNum.nan

/-- `ScenarioFairnessMetrics`. -/
structure ScenarioFairnessMetrics (R : Type) where
  totalStructures : ℕ
  neutralCount : ℕ
  centerNeutralCount : ℕ
  visibleNeutralCounts : List ℕ
  visibleEnemyCounts : List ℕ
  visibleNeutralMin : ℕ
  visibleNeutralMax : ℕ
  visibleNeutralRange : ℕ
  visibleEnemyMax : ℕ
  visibleEnemyRange : ℕ
  playerSummaries : List PlayerStructureSummary
  hqDistances : List R
  hqDistanceRange : R
  adjacentHqDistances : List R
  adjacentHqRange : R
  hqRadiusValues : List R
  hqRadiusRange : R
  hqNearestEnemyDistances : List (JsNum R)
  hqNearestEnemyRange : JsNum R
  hqAverageEnemyDistances : List R
  hqAverageEnemyRange : R
  hqAngleMaxDeviationDeg : R
  satelliteAngleStdDevDeg : R
  neutralAngleStdDevDeg : JsNum R
  neutralAccess : List (NeutralAccessSummary R)
  nearestNeutralSpread : JsNum R
  playerClusterStats : List (PlayerClusterStat R)
  clusterAverageRange : R
  clusterMinSpacing : JsNum R
  clusterMaxSpacing : JsNum R
  minForeignGapAcrossPlayers : JsNum R
  playerNeutralAccessCounts : List PlayerNeutralAccessCounts
  neutralNearCountRange : ℕ
  neutralMidCountRange : ℕ
  neutralFarCountRange : ℕ
  neutralNearMidCountRange : ℕ
  playerNeutralTypeCounts : List PlayerNeutralTypeCounts
  neutralTypeFoundryRange : ℕ
  neutralTypeReactorRange : ℕ
  neutralWedgeCountRange : ℕ
  neutralWedgeRadialRange : R
  playerConnectivityCounts : List (String × ℕ)
  connectivityRange : ℕ
  playerIsolationScores : List (String × R)
  isolationRange : R
  maxStructureDistanceToCenter : R
  minStructureDistance : R
  minStructureClearance : R
deriving Repr


/-! `evaluateScenarioFairness(players, structures)` is translated as one
helper definition per metric block (the source computes them as successive
`const` bindings in a single function body), assembled at the end.  It is
faithful for every scenario with players; the spots where degenerate inputs
would surface JS `NaN`/property-write quirks are noted inline. -/

/-- The per-player visible (neutral, enemy) outpost counts. -/
def perPlayerVisibilityM (ops : JsOps R) (players : List Player)
    (structures : List (Structure R)) : List (ℕ × ℕ) :=
  let outposts := structuresToOutposts structures
  players.map fun player =>
    let sources := getPlayerSonarSources outposts player.id
    ((outposts.filter fun o =>
        o.ownerId.isNone && isOutpostVisibleToPlayer ops o player.id sources).length,
     (outposts.filter fun o =>
        o.ownerId.isSome && o.ownerId ≠ some player.id &&
          isOutpostVisibleToPlayer ops o player.id sources).length)

/-- `Math.min(...l)` over counts, `0` for the empty list (always guarded by a
`length` test in the source). -/
def natMin (l : List ℕ) : ℕ := match l with | [] => 0 | h :: t => t.foldl min h

/-- `Math.max(...l)` over counts, `0` for the empty list. -/
def natMax (l : List ℕ) : ℕ := match l with | [] => 0 | h :: t => t.foldl max h

/-- `playerSummaries`. -/
def playerSummariesM (players : List Player) (structures : List (Structure R)) :
    List PlayerStructureSummary :=
  players.map fun player =>
    let owned := structures.filter fun st => st.ownerId = some player.id
    { playerId := player.id
      total := owned.length
      hq := (owned.filter fun st => st.type == SType.hq).length
      foundry := (owned.filter fun st => st.type == SType.foundry).length
      reactor := (owned.filter fun st => st.type == SType.reactor).length }

/-- All pairwise hq distances (`for i; for j > i`). -/
def hqDistancesM (ops : JsOps R) (hqs : List (Structure R)) : List R :=
  (List.range hqs.length).flatMap fun i =>
    ((List.range hqs.length).filter fun j => i < j).map fun j =>
      let a := hqs.getD i (dummyStructure (R := R))
      let b := hqs.getD j (dummyStructure (R := R))
      distance ops a.x a.y b.x b.y

/-- `orderedHqs`: each player's hq, in player order, absentees dropped. -/
def orderedHqsM (players : List Player) (hqs : List (Structure R)) :
    List (Structure R) :=
  players.filterMap fun player => hqs.find? fun st => st.ownerId = some player.id

/-- `adjacentHqDistances` (cyclically adjacent in player order). -/
def adjacentHqDistancesM (ops : JsOps R) (orderedHqs : List (Structure R)) : List R :=
  (List.range orderedHqs.length).map fun i =>
    let current := orderedHqs.getD i (dummyStructure (R := R))
    let next := orderedHqs.getD ((i + 1) % orderedHqs.length) (dummyStructure (R := R))
    distance ops current.x current.y next.x next.y

/-- `hqNearestEnemyDistances` (`Infinity` when a hq has no others). -/
def hqNearestEnemyDistancesM (ops : JsOps R) (orderedHqs : List (Structure R)) :
    List (JsNum R) :=
  (List.range orderedHqs.length).map fun i =>
    let hq := orderedHqs.getD i (dummyStructure (R := R))
    JsNum.jminL (((List.range orderedHqs.length).filter (· ≠ i)).map fun j =>
      let other := orderedHqs.getD j (dummyStructure (R := R))
      JsNum.num (distance ops hq.x hq.y other.x other.y))

/-- `hqAverageEnemyDistances`. -/
def hqAverageEnemyDistancesM (ops : JsOps R) (orderedHqs : List (Structure R)) : List R :=
  (List.range orderedHqs.length).map fun i =>
    let hq := orderedHqs.getD i (dummyStructure (R := R))
    avgR (((List.range orderedHqs.length).filter (· ≠ i)).map fun j =>
      let other := orderedHqs.getD j (dummyStructure (R := R))
      distance ops hq.x hq.y other.x other.y)

/-- The angle of a point seen from the map center, normalized into `[0, 2π)`
(`if (angle < 0) angle += Math.PI * 2`). -/
def normAngleM (ops : JsOps R) (p : Pt R) : R :=
  let center := mapCenter (R := R)
  let a := ops.atan2 (p.y - center.y) (p.x - center.x)
  if a < 0 then a + ops.pi * 2 else a

/-- The sorted normalized hq angles. -/
def hqAnglesM (ops : JsOps R) (orderedHqs : List (Structure R)) : List R :=
  sortAsc (orderedHqs.map fun hq => normAngleM ops hq.pos)

/-- `angleDeviations`: the gap to the next hq angle
(`((next - current + 2π) % (2π)) || 2π` — a zero remainder is JS-falsy)
against the even wedge arc. -/
def angleDeviationsM (ops : JsOps R) (hqAngles : List R) (wedgeArc : R) : List R :=
  (List.range hqAngles.length).map fun i =>
    let current := hqAngles.getD i 0
    let next := hqAngles.getD ((i + 1) % hqAngles.length) 0
    let delta₀ := jsMod (next - current + ops.pi * 2) (ops.pi * 2)
    let delta := if delta₀ = 0 then ops.pi * 2 else delta₀
    |delta - wedgeArc|

/-- `hqAngleByOwner[ownerId]` (`?? 0`): built by `forEach`, so a later
assignment would win. -/
def hqAngleByOwnerM (ops : JsOps R) (orderedHqs : List (Structure R)) (oid : String) : R :=
  ((orderedHqs.reverse.find? fun hq => hq.ownerId = some oid).map
    fun hq => normAngleM ops hq.pos).getD 0

/-- `allSatelliteAngleOffsets`. -/
def allSatelliteAngleOffsetsM (ops : JsOps R) (players : List Player)
    (structures orderedHqs : List (Structure R)) : List R :=
  players.flatMap fun player =>
    match orderedHqs.find? fun st => st.ownerId = some player.id with
    | none => []
    | some hq =>
      let wedgeCenterAngle := hqAngleByOwnerM ops orderedHqs player.id
      let satellites := structures.filter fun st =>
        st.ownerId = some player.id && st.type != SType.hq
      satellites.map fun sat =>
        clampAngle ops (ops.atan2 (sat.y - hq.y) (sat.x - hq.x) - wedgeCenterAngle)

/-- Sample standard deviation (population form) in degrees, as the source
computes it: `sqrt(avg((v - mean)^2)) * 180/π` when more than one sample. -/
def stdDevDegM (ops : JsOps R) (l : List R) : R :=
  let m := if 0 < l.length then avgR l else 0
  if 1 < l.length then
    ops.sqrt (avgR (l.map fun v => (v - m) * (v - m))) * (180 / ops.pi)
  else 0

/-- `allNeutralAngleOffsets`: each neutral's angular offset to its nearest
wedge center.  With no wedge centers the source indexes `wedgeCenters[0]` as
`undefined` and pushes `NaN`. -/
def allNeutralAngleOffsetsM (ops : JsOps R) (neutrals : List (Structure R))
    (wedgeCenters : List R) : List (JsNum R) :=
  neutrals.map fun n =>
    let a := normAngleM ops n.pos
    let best := (wedgeCenters.foldl
      (fun (acc : ℕ × Option R × ℕ) wc =>
        let (bestIdx, bestDiff, i) := acc
        let diff := |clampAngle ops (a - wc)|
        match bestDiff with
        | none => (i, some diff, i + 1)
        | some b => if diff < b then (i, some diff, i + 1) else (bestIdx, bestDiff, i + 1))
      (0, none, 0)).1
    match wedgeCenters.get? best with
    | some wc => JsNum.num (clampAngle ops (a - wc))
    | none => JsNum.nan

/-- `neutralAngleStdDevDeg` over possibly-NaN offsets. -/
def neutralAngleStdDevDegM (ops : JsOps R) (offsets : List (JsNum R)) : JsNum R :=
  if 1 < offsets.length then
    if offsets.all (·.isFinite) then
      JsNum.num (stdDevDegM ops (offsets.filterMap fun v =>
        match v with | JsNum.num r => some r | _ => none))
    else JsNum.nan
  else JsNum.num 0

/-- `neutralAccess`. -/
def neutralAccessM (ops : JsOps R) (players : List Player)
    (hqs neutrals : List (Structure R)) : List (NeutralAccessSummary R) :=
  players.map fun player =>
    match hqs.find? fun st => st.ownerId = some player.id with
    | none => ⟨player.id, JsNum.posInf, []⟩
    | some hq =>
      if neutrals.length = 0 then ⟨player.id, JsNum.posInf, []⟩
      else
        let sortedDistances := sortAsc (neutrals.map fun n =>
          distance ops hq.x hq.y n.x n.y)
        ⟨player.id, JsNum.num ((sortedDistances.take 2).foldl (· + ·) 0), sortedDistances⟩

/-- `playerClusterStats`. -/
def playerClusterStatsM (ops : JsOps R) (players : List Player)
    (structures orderedHqs : List (Structure R)) : List (PlayerClusterStat R) :=
  players.map fun player =>
    match orderedHqs.find? fun st => st.ownerId = some player.id with
    | none => ⟨player.id, 0, none, none, JsNum.posInf⟩
    | some hq =>
      let satellites := structures.filter fun st =>
        st.ownerId = some player.id && st.type != SType.hq
      let dists := satellites.map fun st => distance ops st.x st.y hq.x hq.y
      let minForeignGap : JsNum R :=
        if satellites.length = 0 then JsNum.posInf
        else JsNum.jminL (satellites.map fun st =>
          let own := distance ops st.x st.y hq.x hq.y
          let foreign := JsNum.jminL ((orderedHqs.filter fun other =>
            other.ownerId ≠ some player.id).map fun other =>
            JsNum.num (distance ops st.x st.y other.x other.y))
          foreign.sub (JsNum.num own))
      ⟨player.id, avgR dists,
       some (if dists.length = 0 then 0 else listMin dists),
       some (if dists.length = 0 then 0 else listMax dists), minForeignGap⟩

/-- `playerNeutralAccessCounts` (near/mid/far bands). -/
def playerNeutralAccessCountsM (ops : JsOps R) (players : List Player)
    (orderedHqs neutrals : List (Structure R)) : List PlayerNeutralAccessCounts :=
  players.map fun player =>
    match orderedHqs.find? fun st => st.ownerId = some player.id with
    | none => ⟨player.id, 0, 0, 0⟩
    | some hq =>
      let dists := neutrals.map fun n => distance ops n.x n.y hq.x hq.y
      ⟨player.id,
       (dists.filter fun d => 0 ≤ d ∧ d ≤ NEUTRAL_NEAR_RADIUS).length,
       (dists.filter fun d => NEUTRAL_NEAR_RADIUS < d ∧ d ≤ NEUTRAL_MID_RADIUS).length,
       (dists.filter fun d => NEUTRAL_MID_RADIUS < d ∧ d ≤ NEUTRAL_FAR_RADIUS).length⟩

/-- `playerNeutralTypeCounts` (types within the near+mid band). -/
def playerNeutralTypeCountsM (ops : JsOps R) (players : List Player)
    (orderedHqs neutrals : List (Structure R)) : List PlayerNeutralTypeCounts :=
  players.map fun player =>
    match orderedHqs.find? fun st => st.ownerId = some player.id with
    | none => ⟨player.id, 0, 0⟩
    | some hq =>
      let nearby := neutrals.filter fun n =>
        let d := distance ops n.x n.y hq.x hq.y
        0 ≤ d ∧ d ≤ NEUTRAL_MID_RADIUS
      ⟨player.id, (nearby.filter fun n => n.type == SType.foundry).length,
       (nearby.filter fun n => n.type == SType.reactor).length⟩

/-- The per-wedge neutral tallies (counts and summed center distances).  A
negative wedge index would be a JS property write that the later `Math.max`
aggregation never sees, hence the `0 ≤ idx` guard. -/
def wedgeTalliesM (ops : JsOps R) (players : List Player)
    (neutrals : List (Structure R)) (wedgeArc : R) : List ℕ × List R :=
  let center := mapCenter (R := R)
  neutrals.foldl
    (fun (acc : List ℕ × List R) n =>
      let angle := normAngleM ops n.pos
      let idx : ℤ := min ((players.length : ℤ) - 1) ⌊angle / wedgeArc⌋
      if 0 ≤ idx then
        let i := idx.toNat
        (acc.1.set i (acc.1.getD i 0 + 1),
         acc.2.set i (acc.2.getD i 0 + distance ops n.x n.y center.x center.y))
      else acc)
    ((List.range players.length).map fun _ => 0, (List.range players.length).map fun _ => 0)

/-- `playerConnectivityCounts`. -/
def playerConnectivityCountsM (ops : JsOps R) (players : List Player)
    (orderedHqs neutrals : List (Structure R)) : List (String × ℕ) :=
  players.map fun player =>
    match orderedHqs.find? fun st => st.ownerId = some player.id with
    | none => (player.id, 0)
    | some hq =>
      (player.id, (neutrals.filter fun n =>
        distance ops n.x n.y hq.x hq.y ≤ CONNECTIVITY_RADIUS).length)

/-- `playerIsolationScores`. -/
def playerIsolationScoresM (ops : JsOps R) (players : List Player)
    (orderedHqs neutrals : List (Structure R)) : List (String × R) :=
  players.map fun player =>
    match orderedHqs.find? fun st => st.ownerId = some player.id with
    | none => (player.id, 0)
    | some hq =>
      let nearestNeutrals := (sortAsc (neutrals.map fun n =>
        distance ops n.x n.y hq.x hq.y)).take 3
      let closestEnemies := (sortAsc ((orderedHqs.filter fun st =>
        st.ownerId ≠ some player.id).map fun st =>
        distance ops st.x st.y hq.x hq.y)).take 2
      (player.id, avgR nearestNeutrals + avgR closestEnemies)

/-- All pairwise (distance, clearance) values (`for i; for j > i`). -/
def structurePairsM (ops : JsOps R) (structures : List (Structure R)) : List (R × R) :=
  (List.range structures.length).flatMap fun i =>
    ((List.range structures.length).filter fun j => i < j).map fun j =>
      let a := structures.getD i (dummyStructure (R := R))
      let b := structures.getD j (dummyStructure (R := R))
      (distance ops a.x a.y b.x b.y, distance ops a.x a.y b.x b.y - (a.size + b.size))

/-- The assembled `evaluateScenarioFairness(players, structures)`. -/
def evaluateScenarioFairness (ops : JsOps R) (players : List Player)
    (structures : List (Structure R)) : ScenarioFairnessMetrics R :=
  let neutrals := structures.filter fun st => st.ownerId.isNone
  let hqs := structures.filter fun st => st.type == SType.hq
  let perPlayerVisibility := perPlayerVisibilityM ops players structures
  let visibleNeutralCounts := perPlayerVisibility.map (·.1)
  let visibleEnemyCounts := perPlayerVisibility.map (·.2)
  let center := mapCenter (R := R)
  -- `wedgeArc = 2π / players.length` (call sites always pass the 5 players)
  let wedgeArc := ops.pi * 2 / (players.length : R)
  let hqDistances := hqDistancesM ops hqs
  let orderedHqs := orderedHqsM players hqs
  let adjacentHqDistances := adjacentHqDistancesM ops orderedHqs
  let hqRadiusValues := orderedHqs.map fun hq => distance ops hq.x hq.y center.x center.y
  let hqNearestEnemyDistances := hqNearestEnemyDistancesM ops orderedHqs
  let hqAverageEnemyDistances := hqAverageEnemyDistancesM ops orderedHqs
  let hqAngles := hqAnglesM ops orderedHqs
  let angleDeviations := angleDeviationsM ops hqAngles wedgeArc
  let allSatelliteAngleOffsets := allSatelliteAngleOffsetsM ops players structures orderedHqs
  let wedgeCenters := hqAngles.map fun a => jsMod (a + wedgeArc / 2) (ops.pi * 2)
  let allNeutralAngleOffsets := allNeutralAngleOffsetsM ops neutrals wedgeCenters
  let neutralAccess := neutralAccessM ops players hqs neutrals
  let playerClusterStats := playerClusterStatsM ops players structures orderedHqs
  let playerNeutralAccessCounts := playerNeutralAccessCountsM ops players orderedHqs neutrals
  let playerNeutralTypeCounts := playerNeutralTypeCountsM ops players orderedHqs neutrals
  let wedgeTallies := wedgeTalliesM ops players neutrals wedgeArc
  let neutralsPerWedge := wedgeTallies.1
  let wedgeRadialAverages := wedgeTallies.2
  let playerConnectivityCounts := playerConnectivityCountsM ops players orderedHqs neutrals
  let playerIsolationScores := playerIsolationScoresM ops players orderedHqs neutrals
  let pairList := structurePairsM ops structures
  { totalStructures := structures.length
    neutralCount := neutrals.length
    centerNeutralCount := (neutrals.filter fun n =>
      distance ops n.x n.y center.x center.y ≤ CENTER_OCCUPANCY_RADIUS).length
    visibleNeutralCounts := visibleNeutralCounts
    visibleEnemyCounts := visibleEnemyCounts
    visibleNeutralMin := natMin visibleNeutralCounts
    visibleNeutralMax := natMax visibleNeutralCounts
    visibleNeutralRange := natMax visibleNeutralCounts - natMin visibleNeutralCounts
    visibleEnemyMax := natMax visibleEnemyCounts
    visibleEnemyRange := natMax visibleEnemyCounts - natMin visibleEnemyCounts
    playerSummaries := playerSummariesM players structures
    hqDistances := hqDistances
    hqDistanceRange := rangeGuardR hqDistances
    adjacentHqDistances := adjacentHqDistances
    adjacentHqRange := rangeGuardR adjacentHqDistances
    hqRadiusValues := hqRadiusValues
    hqRadiusRange := rangeGuardR hqRadiusValues
    hqNearestEnemyDistances := hqNearestEnemyDistances
    hqNearestEnemyRange := jsRangeGuard hqNearestEnemyDistances
    hqAverageEnemyDistances := hqAverageEnemyDistances
    hqAverageEnemyRange := rangeGuardR hqAverageEnemyDistances
    hqAngleMaxDeviationDeg :=
      if 0 < angleDeviations.length then listMax angleDeviations * 180 / ops.pi else 0
    satelliteAngleStdDevDeg := stdDevDegM ops allSatelliteAngleOffsets
    neutralAngleStdDevDeg := neutralAngleStdDevDegM ops allNeutralAngleOffsets
    neutralAccess := neutralAccess
    nearestNeutralSpread :=
      if 0 < neutralAccess.length then
        (JsNum.jmaxL (neutralAccess.map (·.nearestTwoSum))).sub
          (JsNum.jminL (neutralAccess.map (·.nearestTwoSum)))
      else JsNum.num 0
    playerClusterStats := playerClusterStats
    clusterAverageRange :=
      if 0 < playerClusterStats.length then
        listMax (playerClusterStats.map (·.averageSpacing)) -
          listMin (playerClusterStats.map (·.averageSpacing))
      else 0
    clusterMinSpacing :=
      if 0 < playerClusterStats.length then
        JsNum.jminL (playerClusterStats.map fun st => optToJs st.minSpacing)
      else JsNum.num 0
    clusterMaxSpacing :=
      if 0 < playerClusterStats.length then
        JsNum.jmaxL (playerClusterStats.map fun st => optToJs st.maxSpacing)
      else JsNum.num 0
    minForeignGapAcrossPlayers := JsNum.jminL (playerClusterStats.map (·.minForeignGap))
    playerNeutralAccessCounts := playerNeutralAccessCounts
    neutralNearCountRange :=
      if 0 < playerNeutralAccessCounts.length then
        rangeGuardN (playerNeutralAccessCounts.map (·.nearCount))
      else 0
    neutralMidCountRange :=
      if 0 < playerNeutralAccessCounts.length then
        rangeGuardN (playerNeutralAccessCounts.map (·.midCount))
      else 0
    neutralFarCountRange :=
      if 0 < playerNeutralAccessCounts.length then
        rangeGuardN (playerNeutralAccessCounts.map (·.farCount))
      else 0
    neutralNearMidCountRange :=
      if 0 < playerNeutralAccessCounts.length then
        rangeGuardN (playerNeutralAccessCounts.map fun e => e.nearCount + e.midCount)
      else 0
    playerNeutralTypeCounts := playerNeutralTypeCounts
    neutralTypeFoundryRange :=
      if 0 < playerNeutralTypeCounts.length then
        rangeGuardN (playerNeutralTypeCounts.map (·.foundry))
      else 0
    neutralTypeReactorRange :=
      if 0 < playerNeutralTypeCounts.length then
        rangeGuardN (playerNeutralTypeCounts.map (·.reactor))
      else 0
    neutralWedgeCountRange := rangeGuardN neutralsPerWedge
    neutralWedgeRadialRange :=
      if 0 < wedgeRadialAverages.length then
        let avgs := (List.range wedgeRadialAverages.length).map fun i =>
          if neutralsPerWedge.getD i 0 = 0 then (0 : R)
          else wedgeRadialAverages.getD i 0 / (neutralsPerWedge.getD i 0 : R)
        listMax avgs - listMin avgs
      else 0
    playerConnectivityCounts := playerConnectivityCounts
    connectivityRange :=
      if 0 < playerConnectivityCounts.length then
        rangeGuardN (playerConnectivityCounts.map (·.2))
      else 0
    playerIsolationScores := playerIsolationScores
    isolationRange :=
      if 0 < playerIsolationScores.length then
        listMax (playerIsolationScores.map (·.2)) - listMin (playerIsolationScores.map (·.2))
      else 0
    maxStructureDistanceToCenter :=
      structures.foldl (fun acc st => max acc (distance ops st.x st.y center.x center.y)) 0
    minStructureDistance :=
      match pairList.map (·.1) with
      | [] => 0      -- `Number.isFinite(Infinity) ? … : 0`
      | h :: t => t.foldl min h
    minStructureClearance :=
      match pairList.map (·.2) with
      | [] => 0
      | h :: t => t.foldl min h }

/-! ### The sampling/report layer (`fairnessReport.ts`) -/

/-- `FairnessStatKey`. -/
inductive FairnessStatKey where
  | adjacentRange
  | hqRadiusRange
  | hqNearestEnemyRange
  | hqAverageEnemyRange
  | hqAngleMaxDeviationDeg
  | satelliteAngleStdDevDeg
  | neutralAngleStdDevDeg
  | centerNeutralCount
  | centerNeutralCountMax
  | neutralSpread
  | clusterAverageRange
  | clusterMinSpacing
  | clusterMaxSpacing
  | minForeignGap
  | neutralNearCountRange
  | neutralMidCountRange
  | neutralFarCountRange
  | neutralNearMidCountRange
  | neutralFoundryRange
  | neutralReactorRange
  | connectivityRange
  | isolationRange
  | clearance
  | maxDistanceToCenter
  | minStructureDistance
deriving DecidableEq, Repr

/-- A stat reducer direction (`STAT_CONFIG[key].reducer`). -/
inductive StatReducer where
  | rmax
  | rmin
deriving DecidableEq, Repr

open FairnessStatKey in
/-- `STAT_CONFIG` (lines 112-138). -/
def statReducer : FairnessStatKey → StatReducer
  | adjacentRange => .rmax
  | hqRadiusRange => .rmax
  | hqNearestEnemyRange => .rmax
  | hqAverageEnemyRange => .rmax
  | hqAngleMaxDeviationDeg => .rmax
  | satelliteAngleStdDevDeg => .rmin
  | neutralAngleStdDevDeg => .rmin
  | centerNeutralCount => .rmin
  | centerNeutralCountMax => .rmax
  | neutralSpread => .rmax
  | clusterAverageRange => .rmax
  | clusterMinSpacing => .rmin
  | clusterMaxSpacing => .rmax
  | minForeignGap => .rmin
  | neutralNearCountRange => .rmax
  | neutralMidCountRange => .rmax
  | neutralFarCountRange => .rmax
  | neutralNearMidCountRange => .rmax
  | neutralFoundryRange => .rmax
  | neutralReactorRange => .rmax
  | connectivityRange => .rmax
  | isolationRange => .rmax
  | clearance => .rmin
  | maxDistanceToCenter => .rmax
  | minStructureDistance => .rmin

open FairnessStatKey in
/-- The metric each stat key tracks: the value passed to its `updateStat`
call in `summarizeReports` (lines 174-198). -/
def statSource (m : ScenarioFairnessMetrics R) : FairnessStatKey → JsNum R
  | adjacentRange => JsNum.num m.adjacentHqRange
  | hqRadiusRange => JsNum.num m.hqRadiusRange
  | hqNearestEnemyRange => m.hqNearestEnemyRange
  | hqAverageEnemyRange => JsNum.num m.hqAverageEnemyRange
  | hqAngleMaxDeviationDeg => JsNum.num m.hqAngleMaxDeviationDeg
  | satelliteAngleStdDevDeg => JsNum.num m.satelliteAngleStdDevDeg
  | neutralAngleStdDevDeg => m.neutralAngleStdDevDeg
  | centerNeutralCount => JsNum.num (m.centerNeutralCount : R)
  | centerNeutralCountMax => JsNum.num (m.centerNeutralCount : R)
  | neutralSpread => m.nearestNeutralSpread
  | clusterAverageRange => JsNum.num m.clusterAverageRange
  | clusterMinSpacing => m.clusterMinSpacing
  | clusterMaxSpacing => m.clusterMaxSpacing
  | minForeignGap => m.minForeignGapAcrossPlayers
  | neutralNearCountRange => JsNum.num (m.neutralNearCountRange : R)
  | neutralMidCountRange => JsNum.num (m.neutralMidCountRange : R)
  | neutralFarCountRange => JsNum.num (m.neutralFarCountRange : R)
  | neutralNearMidCountRange => JsNum.num (m.neutralNearMidCountRange : R)
  | neutralFoundryRange => JsNum.num (m.neutralTypeFoundryRange : R)
  | neutralReactorRange => JsNum.num (m.neutralTypeReactorRange : R)
  | connectivityRange => JsNum.num (m.connectivityRange : R)
  | isolationRange => JsNum.num (m.isolationRange : R)
  | clearance => JsNum.num m.minStructureClearance
  | maxDistanceToCenter => JsNum.num m.maxStructureDistanceToCenter
  | minStructureDistance => JsNum.num m.minStructureDistance

/-- `FairnessStat` (`{value, seed}`). -/
structure FairnessStat (R : Type) where
  value : JsNum R
  seed : Option ℚ
deriving DecidableEq, Repr

/-- `createInitialStats()`: `-Infinity` for max-reducers, `Infinity` for
min-reducers, no seed. -/
def createInitialStats : FairnessStatKey → FairnessStat R := fun key =>
  ⟨match statReducer key with
    | .rmax => JsNum.negInf
    | .rmin => JsNum.posInf, none⟩

/-- `updateStat(stats, key, value, seed)` for a single stat record:
non-finite values are skipped; a max-stat is replaced when
`value > stats[key].value`, a min-stat when `value < stats[key].value`. -/
def updateStat1 (st : FairnessStat R) (red : StatReducer) (value : JsNum R) (seed : ℚ) :
    FairnessStat R :=
  if !value.isFinite then st
  else
    match red with
    | .rmax => if JsNum.jlt st.value value then ⟨value, some seed⟩ else st
    | .rmin => if JsNum.jlt value st.value then ⟨value, some seed⟩ else st

/-- Which direction a reducer improves in: a `max` stat is beaten by a
larger value, a `min` stat by a smaller one (`updateStat`'s comparison). -/
def statBeats (red : StatReducer) (old new : JsNum R) : Bool :=
  match red with
  | .rmax => JsNum.jlt old new
  | .rmin => JsNum.jlt new old

/-- `finalizeStat`. -/
def finalizeStat (st : FairnessStat R) : FairnessStat R :=
  if !st.value.isFinite then ⟨JsNum.num 0, none⟩ else st

/-- One sampled report (`ScenarioMetricsReport`). -/
structure ScenarioMetricsReport (R : Type) where
  seed : ℚ
  scenario : Scenario R
  metrics : ScenarioFairnessMetrics R

/-- `FairnessSummary`; the `stats` object is a total map over the keys. -/
structure FairnessSummary (R : Type) where
  seedsTested : ℕ
  averageHqDistance : R
  stats : FairnessStatKey → FairnessStat R

/-- `summarizeReports(reports)` (lines 170-211): the body issues one
`updateStat` call per stat key for each report — each call touches exactly
its own key, so the fold is expressed pointwise per key — and then
finalizes every stat. -/
def summarizeReports (reports : List (ScenarioMetricsReport R)) : FairnessSummary R :=
  let stats := reports.foldl
    (fun (stats : FairnessStatKey → FairnessStat R) report => fun key =>
      updateStat1 (stats key) (statReducer key) (statSource report.metrics key) report.seed)
    createInitialStats
  { seedsTested := reports.length
    averageHqDistance := avgR (reports.flatMap fun r => r.metrics.hqDistances)
    stats := fun key => finalizeStat (stats key) }

/-- The sampling loop of `runFairnessSamples` (lines 449-454), one report per
`i`; `none` if any generation would still be retrying at the fuel bound. -/
def runSamplesGo (ops : JsOps R) (outpostNames : List String) (genFuel : ℕ)
    (startSeed : ℚ) : List ℕ → Option (List (ScenarioMetricsReport R))
  | [] => some []
  | i :: rest =>
    match generateStartingScenario ops outpostNames genFuel (some (startSeed + (i : ℚ))) 0 with
    | none => none
    | some scenario =>
      match runSamplesGo ops outpostNames genFuel startSeed rest with
      | none => none
      | some reports =>
        some (⟨startSeed + (i : ℚ), scenario,
          evaluateScenarioFairness ops scenario.players scenario.structures⟩ :: reports)

/-- `runFairnessSamples(sampleSize, startSeed = 1)`. -/
def runFairnessSamples (ops : JsOps R) (outpostNames : List String) (genFuel : ℕ)
    (sampleSize : ℕ) (startSeed : ℚ) :
    Option (List (ScenarioMetricsReport R) × FairnessSummary R) :=
  match runSamplesGo ops outpostNames genFuel startSeed (List.range sampleSize) with
  | none => none
  | some reports => some (reports, summarizeReports reports)

/-! ### Concrete interpretations used by witnesses

The theorems below quantify over the `Math` record; these computable
rational instantiations let each hypothesis be discharged on concrete
inputs. -/

/-- A circle-isometric interpretation over `ℚ`: `cos ≡ 1`, `sin ≡ 0`, and
the taxicab `hypot`, so that `hypot (cos a · r) (sin a · r) = |r|`. -/
def qOpsCircle : JsOps ℚ :=
  { pi := 3, sin := fun _ => 0, cos := fun _ => 1, atan2 := fun y _ => y,
    hypot := fun a b => |a| + |b|, sqrt := fun _ => 0 }

/-- Options for the concrete rebalancer-step instantiation. -/
def wRebOpts : RebalanceOptions ℚ := ⟨320, 300, 450, 7, 150, 1600, 60⟩

/-- A single hq for the concrete rebalancer-step instantiation. -/
def wRebHqs : List (Pt ℚ) := [⟨1330, 50⟩]

/-- A single neutral for the concrete rebalancer-step instantiation. -/
def wRebNs : List (Pt ℚ) := [⟨1330, 1050⟩]

/-- A rebalancer state for `wRebHqs`/`wRebNs` whose cached metrics are the
freshly computed ones. -/
def wRebSt : RebState ℚ := ⟨wRebNs, [2000], 0, [100999], 0, 0, 1, 1⟩

/-- The interpretation used to exhibit a complete generator run over `ℚ`:
spread-out trigonometry (`cos = id`, `sin ≡ 1`, `atan2 y x = y`) and a
constant `hypot`, under which every separation test passes and the
rejection sampling succeeds quickly. -/
def qOpsGen : JsOps ℚ :=
  { pi := 3, sin := fun _ => 1, cos := fun a => a, atan2 := fun y _ => y,
    hypot := fun _ _ => 500, sqrt := fun _ => 0 }

/-- The nearest-two-sum spread of `balanceNeutralReach`
(`Math.max(...sums) - Math.min(...sums)`, `0` when there are no hqs — in
that case the loop leaves the array untouched anyway). -/
def reachSpread (ops : JsOps R) (hqs : List (LPt R)) (ns : List (Pt R)) : R :=
  listMax (nearestSums ops hqs ns) - listMin (nearestSums ops hqs ns)

/-- The actual number of center neutrals, as the rebalancer's tracked
`centerCount` represents it. -/
def countCenterZ (ops : JsOps R) (opts : RebalanceOptions R) (ns : List (Pt R)) : ℤ :=
  ((ns.filter (isCenterNeutral ops opts)).length : ℤ)

/-- What `considerCandidate` guarantees about any `bestMove` it stores:
the candidate passed every validity check against the iteration context, the
cached metrics are the true metrics of the moved array, and the penalty did
not increase. -/
def ValidBest (ops : JsOps R) (opts : RebalanceOptions R) (ctx : RebIterCtx R)
    (bm : BestMove R) : Prop :=
  vecLen ops (vsub bm.candidate ⟨MAP_WIDTH / 2, MAP_HEIGHT / 2⟩) ≤ opts.maxDistanceToCenter ∧
  0 ≤ bm.candidate.x ∧ bm.candidate.x ≤ MAP_WIDTH ∧
  0 ≤ bm.candidate.y ∧ bm.candidate.y ≤ MAP_HEIGHT ∧
  hasMinSeparation ops ctx.neutrals ctx.idxToMove bm.candidate ctx.structs
    opts.minNeutralSeparation = true ∧
  ctx.centerCount - (if isCenterNeutral ops opts ctx.oldPos then 1 else 0) +
      (if isCenterNeutral ops opts bm.candidate then 1 else 0) ≤ opts.maxCenterCount ∧
  bm.spreadPer = (neutralSpreadMetric ops ctx.hqs (ctx.neutrals.set ctx.idxToMove
    bm.candidate)).1 ∧
  bm.spread = (neutralSpreadMetric ops ctx.hqs (ctx.neutrals.set ctx.idxToMove
    bm.candidate)).2 ∧
  bm.isoPer = (isolationRangeMetric ops ctx.hqs (ctx.neutrals.set ctx.idxToMove
    bm.candidate)).1 ∧
  bm.isoRange = (isolationRangeMetric ops ctx.hqs (ctx.neutrals.set ctx.idxToMove
    bm.candidate)).2 ∧
  bm.penalty = overagePenalty opts bm.spread bm.isoRange ∧
  bm.penalty ≤ ctx.penalty

/-- The rebalancer state's cached metrics agree with the configuration they
describe (established at entry from fresh metric calls, maintained by every
step). -/
def RebConsistent (ops : JsOps R) (opts : RebalanceOptions R) (hqs : List (Pt R))
    (st : RebState R) : Prop :=
  st.spreadPer = (neutralSpreadMetric ops hqs st.neutrals).1 ∧
  st.spread = (neutralSpreadMetric ops hqs st.neutrals).2 ∧
  st.isoPer = (isolationRangeMetric ops hqs st.neutrals).1 ∧
  st.isoRange = (isolationRangeMetric ops hqs st.neutrals).2 ∧
  st.penalty = overagePenalty opts st.spread st.isoRange ∧
  st.centerCount = countCenterZ ops opts st.neutrals

/-! ### Theorems -/

/-- C1.  For every finite numeric seed, the scenario returned by
`generateStartingScenario({seed})` is a pure function of that seed: two
independent calls can differ only through the `Math.random()` entropy, which
is consulted exactly when no finite seed is supplied — so with the same seed
the calls agree on the whole result (players, structures with all their
fields, and `activePlayerIndex`), whenever the retry recursion terminates at
all (the same fuel bound on both sides). -/
theorem generateStartingScenario_deterministic (ops : JsOps R)
    (outpostNames : List String) (fuel : ℕ) (seed : ℚ) (entropy₁ entropy₂ : ℚ) :
    generateStartingScenario ops outpostNames fuel (some seed) entropy₁ =
      generateStartingScenario ops outpostNames fuel (some seed) entropy₂ := rfl

/-- C6.  Every value returned by the generator's RNG closure lies in
`[0, 1)`: the `(k+1)`-st call (from any positive normalized seed, after any
number `k` of prior calls) returns `((s >>> 0) % 1_000_000) / 1_000_000`. -/
theorem rng_value_in_unit_interval (seed k : ℕ) (hseed : 0 < seed) :
    0 ≤ (nextQ (rngStateAfter seed k)).1 ∧ (nextQ (rngStateAfter seed k)).1 < 1 := by
  have h : ∀ n : ℕ, 0 ≤ rngValOfState n ∧ rngValOfState n < 1 := by
    intro n
    unfold rngValOfState
    constructor
    · positivity
    · rw [div_lt_one (by norm_num)]
      exact_mod_cast Nat.cast_lt.mpr (Nat.mod_lt _ (by norm_num))
  exact h _

/-- C6 witness: the very first value from seed 1. -/
theorem rng_value_in_unit_interval_witness :
    0 ≤ (nextQ (rngStateAfter 1 0)).1 ∧ (nextQ (rngStateAfter 1 0)).1 < 1 :=
  rng_value_in_unit_interval 1 0 (by decide)

/-- C9.  `rebalanceNeutrals` invoked with an empty hq array or an empty
neutral array returns immediately: the neutral positions (and the other two
arrays) are completely unchanged, and no error is raised (the embedding is a
total function). -/
theorem rebalanceNeutrals_degenerate_noop (ops : JsOps R) (opts : RebalanceOptions R)
    (s : ℕ) :
    (∀ ns structs, rebalanceNeutrals ops [] ns structs opts s = ([], ns, structs, s)) ∧
    (∀ hqs structs, rebalanceNeutrals ops hqs [] structs opts s =
      (hqs, [], structs, s)) := by
  constructor
  · intro ns structs
    simp [rebalanceNeutrals]
  · intro hqs structs
    simp [rebalanceNeutrals]

/-- C5.  The generator's anchor placement (`buildHqs`, invoked by
`genAttempt` with the once-drawn `rotationOffset = rng() * 2π`): the ring
radius is `HQ_HQ_MIN_DISTANCE / (2·sin(π/5))`, HQ `i` sits at
`polar(center, ringRadius, rotationOffset + i·2π/5)`, all five HQs are
exactly equidistant from the map center (for any interpretation of the
`Math` functions in which `hypot` measures points on a circle, which the
real functions satisfy), and consecutive HQ angles differ by exactly
`2π/5`. -/
theorem hq_ring_symmetric (ops : JsOps R)
    (hcirc : ∀ a r, ops.hypot (ops.cos a * r) (ops.sin a * r) = |r|) :
    (hqRingRadius ops = HQ_HQ_MIN_DISTANCE / (2 * ops.sin (ops.pi / 5))) ∧
    (∀ rot : R, ∀ i : ℕ, i < NUM_PLAYERS →
      (buildHqs ops rot).getD i (dummyLPt (R := R)) =
        (let p := polar ops (mapCenter (R := R)) (hqRingRadius ops)
          (rot + (i : R) * twoPi ops / (NUM_PLAYERS : R))
         ⟨p.x, p.y, "p" ++ toString (i + 1) ++ "-hq", SType.hq,
          some ("p" ++ toString (i + 1))⟩)) ∧
    (∀ rot : R, ∀ i : ℕ, i < NUM_PLAYERS →
      len ops ((buildHqs ops rot).getD i (dummyLPt (R := R))).pos (mapCenter (R := R)) =
        |hqRingRadius ops|) ∧
    (∀ rot : R, ∀ i : ℕ,
      (rot + ((i + 1 : ℕ) : R) * twoPi ops / (NUM_PLAYERS : R)) -
        (rot + (i : R) * twoPi ops / (NUM_PLAYERS : R)) = twoPi ops / (NUM_PLAYERS : R)) := by
  have hget : ∀ (rot : R) (i : ℕ), i < NUM_PLAYERS →
      (buildHqs ops rot).getD i (dummyLPt (R := R)) =
        (let p := polar ops (mapCenter (R := R)) (hqRingRadius ops)
          (rot + (i : R) * twoPi ops / (NUM_PLAYERS : R))
         ⟨p.x, p.y, "p" ++ toString (i + 1) ++ "-hq", SType.hq,
          some ("p" ++ toString (i + 1))⟩) := by
    intro rot i hi
    have hi' : i < NUM_PLAYERS := hi
    simp only [buildHqs, List.getD, List.get?_eq_getElem?, List.getElem?_map,
      List.getElem?_range, hi', if_pos, Option.map_some', Option.getD_some]
  refine ⟨by simp [hqRingRadius, NUM_PLAYERS], hget, ?_, ?_⟩
  · intro rot i hi
    rw [hget rot i hi]
    simp only [polar, LPt.pos, len, mapCenter]
    rw [show ∀ a b : R, a + b - a = b from fun a b => add_sub_cancel_left a b,
      show ∀ a b : R, a + b - a = b from fun a b => add_sub_cancel_left a b]
    exact hcirc _ _
  · intro rot i
    push_cast
    ring

/-- C5 witness: the third HQ for rotation offset `0` under the
circle-isometric rational interpretation. -/
theorem hq_ring_symmetric_witness :
    len qOpsCircle ((buildHqs qOpsCircle 0).getD 2 (dummyLPt (R := ℚ))).pos
      (mapCenter (R := ℚ)) = |hqRingRadius qOpsCircle| :=
  (hq_ring_symmetric qOpsCircle
    (fun a r => by simp [qOpsCircle, abs_mul])).2.2.1 0 2 (by decide)

/-- C7 helper: one outer iteration of `balanceNeutralReach` never increases
the nearest-two spread and preserves the number of neutrals. -/
theorem balanceGo_spread_monotone (ops : JsOps R) (placed hqs : List (LPt R))
    (center : Pt R) :
    ∀ (n : ℕ) (ns : List (Pt R)) (s : ℕ),
      reachSpread ops hqs (balanceGo ops placed hqs center n ns s).1 ≤
          reachSpread ops hqs ns ∧
        (balanceGo ops placed hqs center n ns s).1.length = ns.length := by
  intro n
  induction n with
  | zero => intro ns s; exact ⟨le_refl _, rfl⟩
  | succ n ih =>
    intro ns s
    simp only [balanceGo]
    split
    · exact ⟨le_refl _, rfl⟩
    · rename_i s0 srest hsums
      split
      · exact ⟨le_refl _, rfl⟩
      · rename_i hspread
        split
        · exact ⟨le_refl _, rfl⟩
        · rename_i p hprop
          split
          · rename_i hge
            apply ih
          · rename_i hge
            constructor
            · refine le_trans (ih _ _).1 ?_
              rw [reachSpread, reachSpread]
              exact le_of_lt (lt_of_not_le hge)
            · rw [(ih _ _).2, List.length_set]

/-- C10 helper: `considerCandidate` only ever stores a `bestMove` that
passed every validity check. -/
theorem considerCandidate_preserves (ops : JsOps R) (opts : RebalanceOptions R)
    (ctx : RebIterCtx R) (cand : Pt R) (best : Option (BestMove R))
    (h : ∀ bm, best = some bm → ValidBest ops opts ctx bm) :
    ∀ bm, considerCandidate ops opts ctx cand best = some bm →
      ValidBest ops opts ctx bm := by
  intro bm hbm
  simp only [considerCandidate] at hbm
  rcases ite_eq_iff.mp hbm with ⟨_, hbm⟩ | ⟨h1, hbm⟩
  · exact h bm hbm
  rcases ite_eq_iff.mp hbm with ⟨_, hbm⟩ | ⟨h2, hbm⟩
  · exact h bm hbm
  rcases ite_eq_iff.mp hbm with ⟨_, hbm⟩ | ⟨h3, hbm⟩
  · exact h bm hbm
  rcases ite_eq_iff.mp hbm with ⟨_, hbm⟩ | ⟨h4, hbm⟩
  · exact h bm hbm
  rcases ite_eq_iff.mp hbm with ⟨_, hbm⟩ | ⟨h5, hbm⟩
  · exact h bm hbm
  rcases ite_eq_iff.mp hbm with ⟨_, hbm⟩ | ⟨_, hbm⟩
  · -- the accepted, better-than-best branch: `bm` is the freshly built record
    rw [Option.some.injEq] at hbm
    subst hbm
    have hx0 : 0 ≤ cand.x := le_of_not_lt fun hc => h2 (by simp [hc])
    have hxW : cand.x ≤ MAP_WIDTH := le_of_not_lt fun hc => h2 (by simp [hc])
    have hy0 : 0 ≤ cand.y := le_of_not_lt fun hc => h2 (by simp [hc])
    have hyH : cand.y ≤ MAP_HEIGHT := le_of_not_lt fun hc => h2 (by simp [hc])
    have hsep : hasMinSeparation ops ctx.neutrals ctx.idxToMove cand ctx.structs
        opts.minNeutralSeparation = true := by
      cases hh : hasMinSeparation ops ctx.neutrals ctx.idxToMove cand ctx.structs
          opts.minNeutralSeparation
      · exact absurd (by simp [hh]) h3
      · rfl
    have hacc : overagePenalty opts
        (neutralSpreadMetric ops ctx.hqs (ctx.neutrals.set ctx.idxToMove cand)).2
        (isolationRangeMetric ops ctx.hqs (ctx.neutrals.set ctx.idxToMove cand)).2 ≤
        ctx.penalty := by
      rcases lt_trichotomy (overagePenalty opts
          (neutralSpreadMetric ops ctx.hqs (ctx.neutrals.set ctx.idxToMove cand)).2
          (isolationRangeMetric ops ctx.hqs (ctx.neutrals.set ctx.idxToMove cand)).2)
          ctx.penalty with hlt | heq | hgt
      · exact hlt.le
      · exact heq.le
      · exact absurd (by simp [not_lt.mpr hgt.le, hgt.ne']) h5
    exact ⟨not_lt.mp h1, hx0, hxW, hy0, hyH, hsep, not_lt.mp h4,
      rfl, rfl, rfl, rfl, rfl, hacc⟩
  · exact h bm hbm

/-- C10 helper: a `considerCandidate` fold preserves the stored move's
validity. -/
theorem foldConsider_preserves {X : Type} (ops : JsOps R) (opts : RebalanceOptions R)
    (ctx : RebIterCtx R) (g : X → Pt R) :
    ∀ (l : List X) (best : Option (BestMove R)),
      (∀ bm, best = some bm → ValidBest ops opts ctx bm) →
      ∀ bm, l.foldl (fun b x => considerCandidate ops opts ctx (g x) b) best = some bm →
        ValidBest ops opts ctx bm := by
  intro l
  induction l with
  | nil => intro best h bm hbm; rw [List.foldl_nil] at hbm; exact h bm hbm
  | cons x rest ih =>
    intro best h bm hbm
    rw [List.foldl_cons] at hbm
    exact ih _ (considerCandidate_preserves ops opts ctx (g x) best h) bm hbm

/-- C10 helper: the twelve-attempt sampling loop preserves validity. -/
theorem rebSampleLoop_preserves (ops : JsOps R) (opts : RebalanceOptions R)
    (ctx : RebIterCtx R) (targetHQ : Pt R) :
    ∀ (n : ℕ) (best : Option (BestMove R)) (s : ℕ),
      (∀ bm, best = some bm → ValidBest ops opts ctx bm) →
      ∀ bm, (rebSampleLoop ops opts ctx targetHQ n best s).1 = some bm →
        ValidBest ops opts ctx bm := by
  intro n
  induction n with
  | zero => intro best s h bm hbm; exact h bm hbm
  | succ n ih =>
    intro best s h bm hbm
    rw [rebSampleLoop] at hbm
    have hnext := considerCandidate_preserves ops opts ctx
      (samplePosNearHQ ops opts targetHQ s).1 best h
    split at hbm
    · rename_i b heq
      by_cases hz : b.penalty = 0
      · rw [if_pos hz] at hbm
        exact hnext bm (heq.trans hbm)
      · rw [if_neg hz] at hbm
        exact ih _ _ (fun c hc => hnext c (heq.trans hc)) bm hbm
    · rename_i heq
      exact ih _ _ (fun c hc => Option.noConfusion hc) bm hbm

/-- C10 helper: the deterministic fallback grid preserves validity. -/
theorem rebFallback_preserves (ops : JsOps R) (opts : RebalanceOptions R)
    (ctx : RebIterCtx R) (targetHQ : Pt R) :
    ∀ bm, rebFallback ops opts ctx targetHQ = some bm → ValidBest ops opts ctx bm := by
  have main : ∀ (f : R → R → Pt R) (l rs : List R) (best : Option (BestMove R)),
      (∀ bm, best = some bm → ValidBest ops opts ctx bm) →
      ∀ bm,
        l.foldl (fun b offset =>
          rs.foldl (fun b2 r => considerCandidate ops opts ctx (f offset r) b2) b) best =
          some bm →
        ValidBest ops opts ctx bm := by
    intro f l
    induction l with
    | nil => intro rs best h bm hbm; rw [List.foldl_nil] at hbm; exact h bm hbm
    | cons a rest ih =>
      intro rs best h bm hbm
      rw [List.foldl_cons] at hbm
      exact ih rs _ (foldConsider_preserves ops opts ctx (f a) rs best h) bm hbm
  intro bm hbm
  simp only [rebFallback] at hbm
  exact main
    (fun offset r => vadd targetHQ (fromAngle ops
      (ops.atan2 (vsub targetHQ ⟨MAP_WIDTH / 2, MAP_HEIGHT / 2⟩).y
          (vsub targetHQ ⟨MAP_WIDTH / 2, MAP_HEIGHT / 2⟩).x + ops.pi + offset) r))
    [-(ops.pi / 2), -(ops.pi / 3), -(ops.pi / 6), 0, ops.pi / 6, ops.pi / 3, ops.pi / 2]
    [rebInnerRadius opts + 20, rebInnerRadius opts + 140, rebInnerRadius opts + 260,
      rebInnerRadius opts + 380]
    none (fun c hc => Option.noConfusion hc) bm hbm

/-- C10 helper: the search result (samples, then fallback) preserves
validity. -/
theorem rebSearch_preserves (ops : JsOps R) (opts : RebalanceOptions R)
    (ctx : RebIterCtx R) (targetHQ : Pt R) (s : ℕ) :
    ∀ bm, (rebSearch ops opts ctx targetHQ s).1 = some bm → ValidBest ops opts ctx bm := by
  intro bm hbm
  unfold rebSearch at hbm
  split at hbm
  · rename_i b heq
    exact rebSampleLoop_preserves ops opts ctx targetHQ 12 none s
      (fun c hc => Option.noConfusion hc) bm (heq.trans hbm)
  · exact rebFallback_preserves ops opts ctx targetHQ bm hbm

/-- C10 helper: replacing an in-range element shifts the center count by
exactly the old/new membership difference. -/
theorem countCenterZ_set (ops : JsOps R) (opts : RebalanceOptions R) :
    ∀ (ns : List (Pt R)) (idx : ℕ) (cand : Pt R), idx < ns.length →
      countCenterZ ops opts (ns.set idx cand) =
        countCenterZ ops opts ns -
          (if isCenterNeutral ops opts (ns.getD idx ⟨0, 0⟩) then 1 else 0) +
          (if isCenterNeutral ops opts cand then 1 else 0) := by
  intro ns
  induction ns with
  | nil => intro idx cand h; cases h
  | cons a t ih =>
    intro idx cand h
    cases idx with
    | zero =>
      simp only [List.set, countCenterZ, List.filter, List.getD, List.get?_eq_getElem?,
        List.getElem?_cons_zero, Option.getD_some]
      by_cases ha : isCenterNeutral ops opts a <;>
        by_cases hc : isCenterNeutral ops opts cand <;>
          simp [ha, hc] <;> ring
    | succ idx =>
      have h' : idx < t.length := Nat.lt_of_succ_lt_succ h
      have := ih idx cand h'
      simp only [List.set, countCenterZ, List.filter, List.getD, List.get?_eq_getElem?,
        List.getElem?_cons_succ] at *
      by_cases ha : isCenterNeutral ops opts a <;> simp [ha] at * <;> omega

/-- C10 helper: the `reduce`-style argmax scan only ever holds its default
or a list element. -/
theorem argmaxFold_mem (f : α → R) :
    ∀ (l : List α) (acc : α × Option R),
      (l.foldl
        (fun (acc : α × Option R) x =>
          match acc.2 with
          | none => (x, some (f x))
          | some b => if f x > b then (x, some (f x)) else acc) acc).1 = acc.1 ∨
      (l.foldl
        (fun (acc : α × Option R) x =>
          match acc.2 with
          | none => (x, some (f x))
          | some b => if f x > b then (x, some (f x)) else acc) acc).1 ∈ l := by
  intro l
  induction l with
  | nil => intro acc; exact Or.inl rfl
  | cons x t ih =>
    intro acc
    obtain ⟨a1, a2⟩ := acc
    simp only [List.foldl_cons]
    cases a2 with
    | none =>
      rcases ih (x, some (f x)) with h | h
      · exact Or.inr (List.mem_cons.mpr (Or.inl h))
      · exact Or.inr (List.mem_cons.mpr (Or.inr h))
    | some b =>
      dsimp only
      by_cases hgt : f x > b
      · rw [if_pos hgt]
        rcases ih (x, some (f x)) with h | h
        · exact Or.inr (List.mem_cons.mpr (Or.inl h))
        · exact Or.inr (List.mem_cons.mpr (Or.inr h))
      · rw [if_neg hgt]
        rcases ih (a1, some b) with h | h
        · exact Or.inl h
        · exact Or.inr (List.mem_cons.mpr (Or.inr h))

/-- C10 helper: with its default in the list, `argmaxElem` picks a list
element. -/
theorem argmaxElem_mem (f : α → R) (l : List α) (d₀ : α) (hd : d₀ ∈ l) :
    argmaxElem f l d₀ ∈ l := by
  rcases argmaxFold_mem f l (d₀, none) with h | h
  · have h2 : argmaxElem f l d₀ = d₀ := h
    rw [h2]
    exact hd
  · exact h

/-- C10 helper: the index picked for a move is a real index of the neutral
array. -/
theorem rebIdxToMove_lt (ops : JsOps R) (opts : RebalanceOptions R) (hqs : List (Pt R))
    (st : RebState R) (iter : ℕ) (hne : st.neutrals ≠ []) :
    rebIdxToMove ops opts hqs st iter < st.neutrals.length := by
  have hmov : ∀ i ∈ rebMovable ops opts st iter, i < st.neutrals.length := by
    intro i hi
    simp only [rebMovable] at hi
    split at hi
    · exact List.mem_range.mp hi
    · exact List.mem_range.mp (List.mem_filter.mp hi).1
  have hne' : rebMovable ops opts st iter ≠ [] := by
    simp only [rebMovable]
    split
    · intro hcontra
      exact hne (List.length_eq_zero.mp (List.range_eq_nil.mp hcontra))
    · rename_i hfull
      intro hcontra
      exact hfull (by rw [hcontra]; rfl)
  have hd : (rebMovable ops opts st iter).headD 0 ∈ rebMovable ops opts st iter := by
    cases hm : rebMovable ops opts st iter with
    | nil => exact absurd hm hne'
    | cons a t => simp
  exact hmov _ (argmaxElem_mem _ _ _ hd)

/-- C10 helper: applying a search result never changes the neutral count. -/
theorem rebStepApply_length (ops : JsOps R) (opts : RebalanceOptions R) (st : RebState R)
    (idx : ℕ) (old : Pt R) (bs : Option (BestMove R) × ℕ) :
    (rebStepApply ops opts st idx old bs).neutrals.length = st.neutrals.length := by
  unfold rebStepApply
  split
  · rfl
  · simp [List.length_set]

/-- C10 helper: the main loop never changes the neutral count. -/
theorem rebalanceLoop_length (ops : JsOps R) (opts : RebalanceOptions R)
    (hqs structs : List (Pt R)) :
    ∀ (fuel iter : ℕ) (st : RebState R),
      (rebalanceLoop ops opts hqs structs iter fuel st).neutrals.length =
        st.neutrals.length := by
  intro fuel
  induction fuel with
  | zero => intro iter st; rfl
  | succ fuel ih =>
    intro iter st
    rw [rebalanceLoop]
    split
    · exact rebStepApply_length ops opts st _ _ _
    · rw [ih]
      exact rebStepApply_length ops opts st _ _ _

/-- C10.  `rebalanceNeutrals` mutates only the neutral array: the hq and
structure arrays pass through unchanged and the neutral count is preserved.
Moreover, starting from a consistent cached state with at least one neutral,
one iteration of the rebalancer either leaves the neutrals unchanged or
overwrites exactly the chosen index with a move that passed every validity
check (`ValidBest`: candidate within `maxDistanceToCenter` of the map
center, inside map bounds, at least `minNeutralSeparation` from every other
neutral and every structure, tracked center count at most `maxCenterCount`,
and no increase of the overage penalty), the refreshed cache stays
consistent, and the penalty never increases. -/
theorem rebalanceNeutrals_mutates_only_neutrals (ops : JsOps R)
    (opts : RebalanceOptions R) (hqs ns structs : List (Pt R)) (s : ℕ)
    (iter : ℕ) (st : RebState R)
    (hcons : RebConsistent ops opts hqs st) (hne : st.neutrals ≠ []) :
    ((rebalanceNeutrals ops hqs ns structs opts s).1 = hqs ∧
     (rebalanceNeutrals ops hqs ns structs opts s).2.2.1 = structs ∧
     (rebalanceNeutrals ops hqs ns structs opts s).2.1.length = ns.length) ∧
    RebConsistent ops opts hqs (rebalanceStep ops opts hqs structs iter st) ∧
    (rebalanceStep ops opts hqs structs iter st).penalty ≤ st.penalty ∧
    ((rebalanceStep ops opts hqs structs iter st).neutrals = st.neutrals ∨
     ∃ bm, ValidBest ops opts (rebCtx ops opts hqs structs st iter) bm ∧
       rebIdxToMove ops opts hqs st iter < st.neutrals.length ∧
       (rebalanceStep ops opts hqs structs iter st).neutrals =
         st.neutrals.set (rebIdxToMove ops opts hqs st iter) bm.candidate ∧
       (rebalanceStep ops opts hqs structs iter st).centerCount ≤ opts.maxCenterCount) := by
  have frame : (rebalanceNeutrals ops hqs ns structs opts s).1 = hqs ∧
      (rebalanceNeutrals ops hqs ns structs opts s).2.2.1 = structs ∧
      (rebalanceNeutrals ops hqs ns structs opts s).2.1.length = ns.length := by
    simp only [rebalanceNeutrals]
    split_ifs with h1 h2
    · exact ⟨rfl, rfl, rfl⟩
    · exact ⟨rfl, rfl, rfl⟩
    · exact ⟨rfl, rfl, rebalanceLoop_length ops opts hqs structs opts.maxIterations 0 _⟩
  refine ⟨frame, ?_⟩
  have hidx : rebIdxToMove ops opts hqs st iter < st.neutrals.length :=
    rebIdxToMove_lt ops opts hqs st iter hne
  obtain ⟨hc1, hc2, hc3, hc4, hc5, hc6⟩ := hcons
  rcases hbs : (rebSearch ops opts (rebCtx ops opts hqs structs st iter)
      (rebTargetHQ opts hqs st) st.rng).1 with _ | bm
  · have hstep : rebalanceStep ops opts hqs structs iter st =
        { st with rng := (rebSearch ops opts (rebCtx ops opts hqs structs st iter)
            (rebTargetHQ opts hqs st) st.rng).2 } := by
      unfold rebalanceStep rebStepApply
      rw [hbs]
    rw [hstep]
    exact ⟨⟨hc1, hc2, hc3, hc4, hc5, hc6⟩, le_refl _, Or.inl rfl⟩
  · have hvb : ValidBest ops opts (rebCtx ops opts hqs structs st iter) bm :=
      rebSearch_preserves ops opts (rebCtx ops opts hqs structs st iter)
        (rebTargetHQ opts hqs st) st.rng bm hbs
    have hstep : rebalanceStep ops opts hqs structs iter st =
        { neutrals := st.neutrals.set (rebIdxToMove ops opts hqs st iter) bm.candidate
          spreadPer := bm.spreadPer
          spread := bm.spread
          isoPer := bm.isoPer
          isoRange := bm.isoRange
          penalty := bm.penalty
          centerCount := st.centerCount -
            (if isCenterNeutral ops opts (rebOldPos ops opts hqs st iter) then 1 else 0) +
            (if isCenterNeutral ops opts bm.candidate then 1 else 0)
          rng := (rebSearch ops opts (rebCtx ops opts hqs structs st iter)
            (rebTargetHQ opts hqs st) st.rng).2 } := by
      unfold rebalanceStep rebStepApply
      rw [hbs]
    obtain ⟨hd, hx0, hxW, hy0, hyH, hsep, hccle, hsp1, hsp2, hi1, hi2, hpen, hple⟩ := hvb
    rw [hstep]
    refine ⟨⟨hsp1, hsp2, hi1, hi2, hpen, ?_⟩, hple, Or.inr ⟨bm,
      ⟨hd, hx0, hxW, hy0, hyH, hsep, hccle, hsp1, hsp2, hi1, hi2, hpen, hple⟩,
      hidx, rfl, hccle⟩⟩
    rw [countCenterZ_set ops opts st.neutrals (rebIdxToMove ops opts hqs st iter)
      bm.candidate hidx, ← hc6]
    exact rfl





set_option maxRecDepth 40000 in
/-- Witness: the rebalancer step theorem instantiated at a concrete
consistent one-hq, one-neutral configuration over `ℚ`. -/
theorem rebalanceNeutrals_mutates_only_neutrals_witness :
    RebConsistent qOpsCircle wRebOpts wRebHqs wRebSt ∧ wRebSt.neutrals ≠ [] ∧
    (((rebalanceNeutrals qOpsCircle wRebHqs wRebNs [] wRebOpts 1).1 = wRebHqs ∧
      (rebalanceNeutrals qOpsCircle wRebHqs wRebNs [] wRebOpts 1).2.2.1 = [] ∧
      (rebalanceNeutrals qOpsCircle wRebHqs wRebNs [] wRebOpts 1).2.1.length =
        wRebNs.length) ∧
     RebConsistent qOpsCircle wRebOpts wRebHqs
       (rebalanceStep qOpsCircle wRebOpts wRebHqs [] 0 wRebSt) ∧
     (rebalanceStep qOpsCircle wRebOpts wRebHqs [] 0 wRebSt).penalty ≤ wRebSt.penalty ∧
     ((rebalanceStep qOpsCircle wRebOpts wRebHqs [] 0 wRebSt).neutrals = wRebSt.neutrals ∨
      ∃ bm, ValidBest qOpsCircle wRebOpts (rebCtx qOpsCircle wRebOpts wRebHqs [] wRebSt 0) bm ∧
        rebIdxToMove qOpsCircle wRebOpts wRebHqs wRebSt 0 < wRebSt.neutrals.length ∧
        (rebalanceStep qOpsCircle wRebOpts wRebHqs [] 0 wRebSt).neutrals =
          wRebSt.neutrals.set (rebIdxToMove qOpsCircle wRebOpts wRebHqs wRebSt 0) bm.candidate ∧
        (rebalanceStep qOpsCircle wRebOpts wRebHqs [] 0 wRebSt).centerCount ≤
          wRebOpts.maxCenterCount)) := by
  have hcons : RebConsistent qOpsCircle wRebOpts wRebHqs wRebSt :=
    ⟨by with_unfolding_all rfl, by with_unfolding_all rfl, by with_unfolding_all rfl,
     by with_unfolding_all rfl, by with_unfolding_all rfl, by with_unfolding_all rfl⟩
  have hne : wRebSt.neutrals ≠ [] := List.cons_ne_nil _ _
  exact ⟨hcons, hne, rebalanceNeutrals_mutates_only_neutrals qOpsCircle wRebOpts wRebHqs
    wRebNs [] 1 0 wRebSt hcons hne⟩


/-- C7.  `balanceNeutralReach` is monotone non-increasing on the
nearest-two-neutral spread (`max − min` over players of the sum of the two
nearest neutral distances): for every input state the spread after the call
is at most the spread before, and the number of neutrals is unchanged. -/
theorem balanceNeutralReach_spread_monotone (ops : JsOps R)
    (neutrals : List (Pt R)) (placed hqs : List (LPt R)) (center : Pt R) (s : ℕ) :
    reachSpread ops hqs (balanceNeutralReach ops neutrals placed hqs center s).1 ≤
        reachSpread ops hqs neutrals ∧
      (balanceNeutralReach ops neutrals placed hqs center s).1.length =
        neutrals.length :=
  balanceGo_spread_monotone ops placed hqs center 200 neutrals s

/-- C8 helper: the JS `<` comparison is irreflexive. -/
theorem jlt_irrefl (v : JsNum R) : JsNum.jlt v v = false := by
  cases v <;> simp [JsNum.jlt]

/-- C8 helper: the JS `<` comparison is asymmetric. -/
theorem jlt_asymm (a b : JsNum R) (h : JsNum.jlt a b = true) : JsNum.jlt b a = false := by
  cases a <;> cases b <;> simp_all [JsNum.jlt]
  exact le_of_lt h

/-- C8 helper: negative transitivity of JS `<` around a non-NaN pivot. -/
theorem jlt_negTrans (a b c : JsNum R) (hb : b ≠ JsNum.nan)
    (h1 : JsNum.jlt a b = false) (h2 : JsNum.jlt b c = false) :
    JsNum.jlt a c = false := by
  cases a <;> cases b <;> cases c <;> simp_all [JsNum.jlt]
  exact le_trans h2 h1

/-- C8 helper: `x < y` and `y ≤ z` give `¬(z < x)` (non-NaN pivot). -/
theorem jlt_ltLeTrans (x y z : JsNum R) (hy : y ≠ JsNum.nan)
    (h1 : JsNum.jlt x y = true) (h2 : JsNum.jlt z y = false) :
    JsNum.jlt z x = false := by
  cases x <;> cases y <;> cases z <;> simp_all [JsNum.jlt]
  exact le_of_lt (lt_of_lt_of_le h1 h2)

/-- C8 helper: `y < x` and `y ≥ z` give `¬(x < z)` (non-NaN pivot). -/
theorem jlt_ltLeTrans2 (x y z : JsNum R) (hy : y ≠ JsNum.nan)
    (h1 : JsNum.jlt y x = true) (h2 : JsNum.jlt y z = false) :
    JsNum.jlt x z = false := by
  cases x <;> cases y <;> cases z <;> simp_all [JsNum.jlt]
  exact le_of_lt (lt_of_le_of_lt h2 h1)

/-- C8 helper: finite JS numbers are not NaN. -/
theorem isFinite_ne_nan (v : JsNum R) (h : v.isFinite = true) : v ≠ JsNum.nan := by
  cases v <;> simp_all [JsNum.isFinite]

/-- C8 helper: a held value never beats itself. -/
theorem statBeats_irrefl (red : StatReducer) (v : JsNum R) : statBeats red v v = false := by
  cases red <;> exact jlt_irrefl v

/-- C8 helper: beating is asymmetric. -/
theorem statBeats_asymm (red : StatReducer) (a b : JsNum R)
    (h : statBeats red a b = true) : statBeats red b a = false := by
  cases red <;> exact jlt_asymm _ _ h

/-- C8 helper: a value beaten by the accepted value cannot beat any later
holder. -/
theorem statBeats_stepUp (red : StatReducer) (g st v : JsNum R) (hv : v ≠ JsNum.nan)
    (hb : statBeats red st v = true) (hg : statBeats red g v = false) :
    statBeats red g st = false := by
  cases red
  · exact jlt_ltLeTrans st v g hv hb hg
  · exact jlt_ltLeTrans2 st v g hv hb hg

/-- C8 helper: a rejected value cannot beat any later holder. -/
theorem statBeats_noStep (red : StatReducer) (g st v : JsNum R) (hst : st ≠ JsNum.nan)
    (hb : statBeats red st v = false) (hg : statBeats red g st = false) :
    statBeats red g v = false := by
  cases red
  · exact jlt_negTrans g st v hst hg hb
  · exact jlt_negTrans v st g hst hb hg

/-- C8 helper: `updateStat` skips non-finite values. -/
theorem updateStat1_notFinite (st : FairnessStat R) (red : StatReducer) (v : JsNum R)
    (seed : ℚ) (h : v.isFinite = false) : updateStat1 st red v seed = st := by
  simp [updateStat1, h]

/-- C8 helper: `updateStat` stores a finite value that beats the held one,
with its seed. -/
theorem updateStat1_accept (st : FairnessStat R) (red : StatReducer) (v : JsNum R)
    (seed : ℚ) (hf : v.isFinite = true) (hb : statBeats red st.value v = true) :
    updateStat1 st red v seed = ⟨v, some seed⟩ := by
  cases red <;> simp_all [updateStat1, statBeats]

/-- C8 helper: `updateStat` keeps the held value against one that does not
beat it. -/
theorem updateStat1_reject (st : FairnessStat R) (red : StatReducer) (v : JsNum R)
    (seed : ℚ) (hf : v.isFinite = true) (hb : statBeats red st.value v = false) :
    updateStat1 st red v seed = st := by
  cases red <;> simp_all [updateStat1, statBeats]

/-- C8 helper: folding `updateStat` over the reports keeps, per key, a
non-NaN value at least the start, never beaten by any finite source value,
and either the start itself or a finite value tagged with its report's
seed. -/
theorem statFoldSpec (key : FairnessStatKey) :
    ∀ (l : List (ScenarioMetricsReport R)) (st : FairnessStat R), st.value ≠ JsNum.nan →
      (l.foldl (fun st report => updateStat1 st (statReducer key)
          (statSource report.metrics key) report.seed) st).value ≠ JsNum.nan ∧
      statBeats (statReducer key)
        (l.foldl (fun st report => updateStat1 st (statReducer key)
          (statSource report.metrics key) report.seed) st).value st.value = false ∧
      (∀ r ∈ l, (statSource r.metrics key).isFinite = true →
        statBeats (statReducer key)
          (l.foldl (fun st report => updateStat1 st (statReducer key)
            (statSource report.metrics key) report.seed) st).value
          (statSource r.metrics key) = false) ∧
      (l.foldl (fun st report => updateStat1 st (statReducer key)
          (statSource report.metrics key) report.seed) st = st ∨
       ∃ r ∈ l, (statSource r.metrics key).isFinite = true ∧
         l.foldl (fun st report => updateStat1 st (statReducer key)
           (statSource report.metrics key) report.seed) st =
           ⟨statSource r.metrics key, some r.seed⟩) := by
  intro l
  induction l with
  | nil =>
    intro st hst
    exact ⟨hst, statBeats_irrefl _ _, fun r hr => absurd hr (List.not_mem_nil r), Or.inl rfl⟩
  | cons r t ih =>
    intro st hst
    rw [List.foldl_cons]
    by_cases hv : (statSource r.metrics key).isFinite = true
    · by_cases hb : statBeats (statReducer key) st.value (statSource r.metrics key) = true
      · rw [updateStat1_accept st _ _ _ hv hb]
        obtain ⟨g1, g2, g3, g4⟩ := ih ⟨statSource r.metrics key, some r.seed⟩
          (isFinite_ne_nan _ hv)
        refine ⟨g1, ?_, ?_, ?_⟩
        · exact statBeats_stepUp (statReducer key) _ st.value _ (isFinite_ne_nan _ hv) hb g2
        · intro r' hr'
          rcases List.mem_cons.mp hr' with h | h
          · subst h
            intro hf'
            exact g2
          · exact g3 r' h
        · rcases g4 with h | ⟨r'', hr'', hf'', heq''⟩
          · exact Or.inr ⟨r, List.mem_cons_self r t, hv, h⟩
          · exact Or.inr ⟨r'', List.mem_cons_of_mem r hr'', hf'', heq''⟩
      · have hb' : statBeats (statReducer key) st.value (statSource r.metrics key) = false := by
          simpa using hb
        rw [updateStat1_reject st _ _ _ hv hb']
        obtain ⟨g1, g2, g3, g4⟩ := ih st hst
        refine ⟨g1, g2, ?_, ?_⟩
        · intro r' hr'
          rcases List.mem_cons.mp hr' with h | h
          · subst h
            intro hf'
            exact statBeats_noStep (statReducer key) _ st.value _ hst hb' g2
          · exact g3 r' h
        · rcases g4 with h | ⟨r'', hr'', hf'', heq''⟩
          · exact Or.inl h
          · exact Or.inr ⟨r'', List.mem_cons_of_mem r hr'', hf'', heq''⟩
    · have hv' : (statSource r.metrics key).isFinite = false := by simpa using hv
      rw [updateStat1_notFinite st _ _ _ hv']
      obtain ⟨g1, g2, g3, g4⟩ := ih st hst
      refine ⟨g1, g2, ?_, ?_⟩
      · intro r' hr'
        rcases List.mem_cons.mp hr' with h | h
        · subst h
          intro hf'
          exact absurd hf' hv
        · exact g3 r' h
      · rcases g4 with h | ⟨r'', hr'', hf'', heq''⟩
        · exact Or.inl h
        · exact Or.inr ⟨r'', List.mem_cons_of_mem r hr'', hf'', heq''⟩

/-- C8 helper: every finite value beats the initial `±Infinity`. -/
theorem statBeats_initial (key : FairnessStatKey) (v : JsNum R) (hf : v.isFinite = true) :
    statBeats (statReducer key) (createInitialStats key).value v = true := by
  cases v <;> simp_all [JsNum.isFinite]
  cases hred : statReducer key <;> simp [createInitialStats, statBeats, hred, JsNum.jlt]

/-- C8 helper: the initial stats are not NaN. -/
theorem createInitialStats_ne_nan (key : FairnessStatKey) :
    (createInitialStats (R := R) key).value ≠ JsNum.nan := by
  cases hred : statReducer key <;> simp [createInitialStats, hred]

/-- C8 helper: `finalizeStat` keeps a finite stat unchanged. -/
theorem finalizeStat_finite (v : JsNum R) (s : Option ℚ) (h : v.isFinite = true) :
    finalizeStat ⟨v, s⟩ = ⟨v, s⟩ := by
  simp [finalizeStat, h]

/-- C8 helper: the stats-object fold acts pointwise per key. -/
theorem statsFold_pointwise :
    ∀ (l : List (ScenarioMetricsReport R)) (f0 : FairnessStatKey → FairnessStat R)
      (key : FairnessStatKey),
      (l.foldl (fun (stats : FairnessStatKey → FairnessStat R) report => fun key =>
        updateStat1 (stats key) (statReducer key) (statSource report.metrics key) report.seed)
        f0) key =
      l.foldl (fun st report => updateStat1 st (statReducer key)
        (statSource report.metrics key) report.seed) (f0 key) := by
  intro l
  induction l with
  | nil => intro f0 key; rfl
  | cons r t ih =>
    intro f0 key
    rw [List.foldl_cons, List.foldl_cons]
    exact ih _ key

/-- C8 helper: the sampling loop's reports carry exactly the requested
seeds, in order. -/
theorem runSamplesGo_seeds (ops : JsOps R) (names : List String) (genFuel : ℕ)
    (startSeed : ℚ) :
    ∀ (l : List ℕ) (reports : List (ScenarioMetricsReport R)),
      runSamplesGo ops names genFuel startSeed l = some reports →
      reports.map (fun r => r.seed) = l.map (fun (i : ℕ) => startSeed + (i : ℚ)) := by
  intro l
  induction l with
  | nil =>
    intro reports h
    have h2 : (some ([] : List (ScenarioMetricsReport R))) = some reports := h
    rw [Option.some.injEq] at h2
    subst h2
    rfl
  | cons i rest ih =>
    intro reports h
    rw [runSamplesGo] at h
    split at h
    · exact Option.noConfusion h
    · rename_i scenario hgen
      split at h
      · exact Option.noConfusion h
      · rename_i reports2 hrec
        rw [Option.some.injEq] at h
        subst h
        rw [List.map_cons, List.map_cons, ih reports2 hrec]

/-- C8.  `runFairnessSamples(n, startSeed)` produces exactly `n` reports for
the consecutive seeds `startSeed, startSeed+1, …, startSeed+n-1`, the summary
has `seedsTested = n`, and for every statistic key the summary holds either
the default `{value := 0, seed := null}` when no report produced a finite
value for that key, or a finite value of that key from one of the reports,
tagged with that report's seed, that no other report's finite value beats
(larger for `max`-reducer statistics, smaller for `min`-reducer ones) — the
extreme of the finite observations. -/
theorem runFairnessSamples_summary_spec (ops : JsOps R) (names : List String)
    (genFuel n : ℕ) (startSeed : ℚ) (reports : List (ScenarioMetricsReport R))
    (summary : FairnessSummary R)
    (h : runFairnessSamples ops names genFuel n startSeed = some (reports, summary)) :
    reports.length = n ∧
    reports.map (fun r => r.seed) = (List.range n).map (fun (i : ℕ) => startSeed + (i : ℚ)) ∧
    summary.seedsTested = n ∧
    ∀ key : FairnessStatKey,
      ((∀ r ∈ reports, (statSource r.metrics key).isFinite = false) ∧
        summary.stats key = ⟨JsNum.num 0, none⟩) ∨
      (∃ r ∈ reports, (statSource r.metrics key).isFinite = true ∧
        summary.stats key = ⟨statSource r.metrics key, some r.seed⟩ ∧
        ∀ r2 ∈ reports, (statSource r2.metrics key).isFinite = true →
          statBeats (statReducer key) (statSource r.metrics key)
            (statSource r2.metrics key) = false) := by
  unfold runFairnessSamples at h
  split at h
  · exact Option.noConfusion h
  · rename_i reports0 hgo
    rw [Option.some.injEq, Prod.mk.injEq] at h
    obtain ⟨h1, h2⟩ := h
    subst h1
    subst h2
    have hmap := runSamplesGo_seeds ops names genFuel startSeed (List.range n) reports0 hgo
    have hlen : reports0.length = n := by
      have := congrArg List.length hmap
      simpa using this
    refine ⟨hlen, hmap, hlen, ?_⟩
    intro key
    have hstats : (summarizeReports reports0).stats key =
        finalizeStat (reports0.foldl (fun st report => updateStat1 st (statReducer key)
          (statSource report.metrics key) report.seed) (createInitialStats key)) := by
      show finalizeStat ((reports0.foldl (fun (stats : FairnessStatKey → FairnessStat R)
        report => fun key => updateStat1 (stats key) (statReducer key)
        (statSource report.metrics key) report.seed) createInitialStats) key) = _
      rw [statsFold_pointwise]
    obtain ⟨g1, g2, g3, g4⟩ := statFoldSpec key reports0 (createInitialStats key)
      (createInitialStats_ne_nan key)
    rcases g4 with hsame | ⟨r, hr, hf, heq⟩
    · refine Or.inl ⟨?_, ?_⟩
      · intro r hr
        by_contra hfin
        have hfin2 : (statSource r.metrics key).isFinite = true := by simpa using hfin
        have hlow := g3 r hr hfin2
        rw [hsame] at hlow
        have hhigh := statBeats_initial key (statSource r.metrics key) hfin2
        rw [hlow] at hhigh
        exact Bool.false_ne_true hhigh
      · rw [hstats, hsame]
        cases hred : statReducer key <;>
          simp [createInitialStats, finalizeStat, hred, JsNum.isFinite]
    · refine Or.inr ⟨r, hr, hf, ?_, ?_⟩
      · rw [hstats, heq]
        exact finalizeStat_finite _ _ hf
      · intro r2 hr2 hf2
        have := g3 r2 hr2 hf2
        rw [heq] at this
        exact this

/-- Witness: the sampling theorem instantiated at a zero-sample run, whose
hypothesis holds by computation. -/
theorem runFairnessSamples_summary_spec_witness :
    runFairnessSamples qOpsCircle [] 0 0 1 =
      some (([] : List (ScenarioMetricsReport ℚ)), summarizeReports []) ∧
    (([] : List (ScenarioMetricsReport ℚ)).length = 0 ∧
     ([] : List (ScenarioMetricsReport ℚ)).map (fun r => r.seed) =
       (List.range 0).map (fun (i : ℕ) => (1 : ℚ) + (i : ℚ)) ∧
     (summarizeReports ([] : List (ScenarioMetricsReport ℚ))).seedsTested = 0 ∧
     ∀ key : FairnessStatKey,
       ((∀ r ∈ ([] : List (ScenarioMetricsReport ℚ)),
           (statSource r.metrics key).isFinite = false) ∧
         (summarizeReports ([] : List (ScenarioMetricsReport ℚ))).stats key =
           ⟨JsNum.num 0, none⟩) ∨
       (∃ r ∈ ([] : List (ScenarioMetricsReport ℚ)),
         (statSource r.metrics key).isFinite = true ∧
         (summarizeReports ([] : List (ScenarioMetricsReport ℚ))).stats key =
           ⟨statSource r.metrics key, some r.seed⟩ ∧
         ∀ r2 ∈ ([] : List (ScenarioMetricsReport ℚ)),
           (statSource r2.metrics key).isFinite = true →
           statBeats (statReducer key) (statSource r.metrics key)
             (statSource r2.metrics key) = false)) :=
  ⟨rfl, runFairnessSamples_summary_spec qOpsCircle [] 0 0 1 [] (summarizeReports []) rfl⟩


-- ### C3: all final structure coordinates lie within the map bounds

theorem mapW_nonneg : (0 : R) ≤ MAP_WIDTH := by norm_num [MAP_WIDTH]

theorem mapH_nonneg : (0 : R) ≤ MAP_HEIGHT := by norm_num [MAP_HEIGHT]

theorem clampAllStage_inBounds (l : List (LPt R)) : InBoundsL (clampAllStage l) := by
  intro p hp
  simp only [clampAllStage] at hp
  obtain ⟨q, hq, rfl⟩ := List.mem_map.mp hp
  exact ⟨le_max_left _ _, max_le mapW_nonneg (min_le_left _ _),
         le_max_left _ _, max_le mapH_nonneg (min_le_left _ _)⟩

theorem setNeutral_inBounds : ∀ (l : List (LPt R)) (i : ℕ) (q : Pt R), InBoundsL l →
    0 ≤ q.x ∧ q.x ≤ MAP_WIDTH ∧ 0 ≤ q.y ∧ q.y ≤ MAP_HEIGHT →
    InBoundsL (setNeutral l i q) := by
  intro l
  induction l with
  | nil => intro i q _ _ p hp; rw [setNeutral] at hp; cases hp
  | cons a t ih =>
    intro i q hl hq p hp
    rw [setNeutral] at hp
    by_cases hown : a.ownerId.isNone = true
    · rw [if_pos hown] at hp
      by_cases hi : i = 0
      · rw [if_pos hi] at hp
        rcases List.mem_cons.mp hp with rfl | hp
        · exact ⟨hq.1, hq.2.1, hq.2.2.1, hq.2.2.2⟩
        · exact hl p (List.mem_cons_of_mem a hp)
      · rw [if_neg hi] at hp
        rcases List.mem_cons.mp hp with h2 | hp
        · rw [h2]; exact hl a (List.mem_cons_self a t)
        · exact ih (i - 1) q (fun r hr => hl r (List.mem_cons_of_mem a hr)) hq p hp
    · rw [if_neg hown] at hp
      rcases List.mem_cons.mp hp with h2 | hp
      · rw [h2]; exact hl a (List.mem_cons_self a t)
      · exact ih i q (fun r hr => hl r (List.mem_cons_of_mem a hr)) hq p hp

theorem centerEvacAttempts_bounds (ops : JsOps R) (others : List (LPt R)) (center : Pt R) :
    ∀ (t s : ℕ) (q : Pt R), (centerEvacAttempts ops others center t s).1 = some q →
      0 ≤ q.x ∧ q.x ≤ MAP_WIDTH ∧ 0 ≤ q.y ∧ q.y ≤ MAP_HEIGHT := by
  intro t
  induction t with
  | zero => intro s q h; exact Option.noConfusion h
  | succ t ih =>
    intro s q h
    rw [centerEvacAttempts] at h
    dsimp only at h
    split at h
    · rename_i hguard
      rw [Option.some.injEq] at h
      subst h
      simp only [Bool.and_eq_true, decide_eq_true_eq] at hguard
      exact ⟨hguard.1.1.1.2, hguard.1.1.2, hguard.1.2, hguard.2⟩
    · exact ih _ q h

theorem centerEvacStage_inBounds (ops : JsOps R) :
    ∀ (n : ℕ) (pts : List (LPt R)) (s : ℕ), InBoundsL pts →
      InBoundsL (centerEvacStage ops n pts s).1 := by
  intro n
  induction n with
  | zero => intro pts s h; exact h
  | succ n ih =>
    intro pts s h
    rw [centerEvacStage]
    dsimp only
    split
    · exact h
    · split
      · exact h
      · split
        · rename_i hq
          exact ih _ _ (setNeutral_inBounds pts _ _ h
            (centerEvacAttempts_bounds ops _ _ 300 s _ hq))
        · exact h

theorem spreadFixStage_inBounds (ops : JsOps R) (pts : List (LPt R)) (h : InBoundsL pts) :
    InBoundsL (spreadFixStage ops pts) := by
  unfold spreadFixStage
  dsimp only
  split
  · exact h
  · exact clampAllStage_inBounds _

theorem centerShortAttempts_bounds (ops : JsOps R) (pts : List (LPt R)) (idx : ℕ)
    (center : Pt R) :
    ∀ (t s : ℕ) (q : Pt R), (centerShortAttempts ops pts idx center t s).1 = some q →
      0 ≤ q.x ∧ q.x ≤ MAP_WIDTH ∧ 0 ≤ q.y ∧ q.y ≤ MAP_HEIGHT := by
  intro t
  induction t with
  | zero => intro s q h; exact Option.noConfusion h
  | succ t ih =>
    intro s q h
    rw [centerShortAttempts] at h
    dsimp only at h
    split at h
    · exact ih _ q h
    rename_i h1
    split at h
    · exact ih _ q h
    split at h
    · exact ih _ q h
    rw [Option.some.injEq] at h
    subst h
    refine ⟨le_of_not_lt fun hc => h1 (by simp [hc]),
            le_of_not_lt fun hc => h1 (by simp [hc]),
            le_of_not_lt fun hc => h1 (by simp [hc]),
            le_of_not_lt fun hc => h1 (by simp [hc])⟩

theorem centerShortStage_inBounds (ops : JsOps R) :
    ∀ (n : ℕ) (pts : List (LPt R)) (s : ℕ), InBoundsL pts →
      InBoundsL (centerShortStage ops n pts s).1 := by
  intro n
  induction n with
  | zero => intro pts s h; exact h
  | succ n ih =>
    intro pts s h
    rw [centerShortStage]
    dsimp only
    split
    · exact h
    · split
      · exact h
      · split
        · rename_i hq
          exact ih _ _ (setNeutral_inBounds pts _ _ h
            (centerShortAttempts_bounds ops _ _ _ 180 s _ hq))
        · exact h

theorem foldAppend_mem (step : List (Structure R) × ℕ → LPt R → List (Structure R) × ℕ)
    (hstep : ∀ acc p, (step acc p).1 = acc.1 ∨
      ∃ st, (step acc p).1 = acc.1 ++ [st] ∧ st.x = p.x ∧ st.y = p.y) :
    ∀ (l : List (LPt R)) (acc : List (Structure R) × ℕ) (st : Structure R),
      st ∈ (l.foldl step acc).1 →
      st ∈ acc.1 ∨ ∃ p ∈ l, st.x = p.x ∧ st.y = p.y := by
  intro l
  induction l with
  | nil => intro acc st h; exact Or.inl h
  | cons x t ih =>
    intro acc st h
    rw [List.foldl_cons] at h
    rcases ih (step acc x) st h with h2 | ⟨p, hp, hxy⟩
    · rcases hstep acc x with h3 | ⟨st2, h3, hx2, hy2⟩
      · rw [h3] at h2
        exact Or.inl h2
      · rw [h3] at h2
        rcases List.mem_append.mp h2 with h4 | h4
        · exact Or.inl h4
        · rcases List.mem_singleton.mp h4 with rfl
          exact Or.inr ⟨x, List.mem_cons_self x t, hx2, hy2⟩
    · exact Or.inr ⟨p, List.mem_cons_of_mem x hp, hxy⟩

theorem emitOwnedStep_shape (players : List Player) (names : List String)
    (acc : List (Structure R) × ℕ) (p : LPt R) :
    (emitOwnedStep players names acc p).1 = acc.1 ∨
    ∃ st, (emitOwnedStep players names acc p).1 = acc.1 ++ [st] ∧
      st.x = p.x ∧ st.y = p.y := by
  cases hpo : p.ownerId with
  | none => left; simp [emitOwnedStep, hpo]
  | some oid =>
    right
    refine ⟨⟨p.id, p.type, p.x, p.y, some oid, nextLabelF names acc.2,
      (players.getD ((oid.drop 1).toNat?.getD 0 - 1) ⟨"", "", ""⟩).color,
      sizeByType p.type, some 40, some (ownedCapacity p.type), generationRate p.type⟩,
      ?_, rfl, rfl⟩
    simp [emitOwnedStep, hpo]

theorem emitNeutralStep_shape (names : List String)
    (acc : List (Structure R) × ℕ) (p : LPt R) :
    (emitNeutralStep names acc p).1 = acc.1 ∨
    ∃ st, (emitNeutralStep names acc p).1 = acc.1 ++ [st] ∧
      st.x = p.x ∧ st.y = p.y := by
  cases hpo : p.ownerId with
  | some oid => left; simp [emitNeutralStep, hpo]
  | none =>
    right
    refine ⟨⟨p.id, p.type, p.x, p.y, none, nextLabelF names acc.2,
      NEUTRAL_COLORS.getD (acc.1.length % NEUTRAL_COLORS.length) "",
      sizeByType p.type, some 0,
      some (if p.type == SType.foundry then (100 : R) else 150), generationRate p.type⟩,
      ?_, rfl, rfl⟩
    simp [emitNeutralStep, hpo]

theorem emit_pos_mem (players : List Player) (names : List String)
    (pts : List (LPt R)) (s : ℕ) (st : Structure R)
    (hst : st ∈ (emitStage players pts names s).1) :
    ∃ p ∈ pts, st.x = p.x ∧ st.y = p.y := by
  unfold emitStage at hst
  rcases foldAppend_mem _ (emitNeutralStep_shape _) pts _ st hst with h | h
  · rcases foldAppend_mem _ (emitOwnedStep_shape players _) pts _ st h with h2 | h2
    · cases h2
    · exact h2
  · exact h

theorem genSeeded_inv (ops : JsOps R) (names : List String) :
    ∀ (fuel seed : ℕ) (sc : Scenario R), genSeeded ops names fuel seed = some sc →
      ∃ s2, (genAttempt ops names s2).1 = sc ∧ (genAttempt ops names s2).2 = true := by
  intro fuel
  induction fuel with
  | zero => intro seed sc h; exact Option.noConfusion h
  | succ fuel ih =>
    intro seed sc h
    rw [genSeeded] at h
    split at h
    · rename_i hok
      rw [Option.some.injEq] at h
      exact ⟨seed, h, hok⟩
    · exact ih _ sc h

theorem gStructures_inBounds (ops : JsOps R) (names : List String) (seed : ℕ) :
    ∀ st ∈ gStructures ops names seed, 0 ≤ st.x ∧ st.x ≤ MAP_WIDTH ∧
      0 ≤ st.y ∧ st.y ≤ MAP_HEIGHT := by
  intro st hst
  have hA6 : InBoundsL (gA6 ops seed).1 :=
    centerShortStage_inBounds ops 60 _ _
      (spreadFixStage_inBounds ops _ (centerEvacStage_inBounds ops 300 _ _
        (clampAllStage_inBounds _)))
  obtain ⟨p, hp, hx, hy⟩ :=
    emit_pos_mem mkPlayers names (gA6 ops seed).1 (gA6 ops seed).2 st hst
  rw [hx, hy]
  exact hA6 p hp

/-- C3. Every structure in a scenario returned by generateStartingScenario has
coordinates within the map: 0 ≤ x ≤ MAP_WIDTH and 0 ≤ y ≤ MAP_HEIGHT. -/
theorem generateStartingScenario_in_bounds (ops : JsOps R) (names : List String)
    (fuel : ℕ) (options : Option ℚ) (entropy : ℚ) (sc : Scenario R)
    (h : generateStartingScenario ops names fuel options entropy = some sc) :
    ∀ st ∈ sc.structures, 0 ≤ st.x ∧ st.x ≤ MAP_WIDTH ∧ 0 ≤ st.y ∧ st.y ≤ MAP_HEIGHT := by
  obtain ⟨s2, hsc, -⟩ := genSeeded_inv ops names fuel (resolveSeed options entropy) sc h
  intro st hst
  rw [← hsc] at hst
  exact gStructures_inBounds ops names s2 st hst

end DroneFeint
